import Mathlib

/-!
# Verification of the stream interception and playlist-rewriting subsystem

This file embeds, in Lean 4, the core logic of the `play-stream-layout`
repository: the service-worker playlist rewriter and resource registry
(`sw.js`), the client proxy
fetcher with its content validator and time-bounded cache
(`src/services/invisibleProxy.ts`), and the channel catalog parser
(`ChannelParserService`).  JavaScript strings are modelled as `List Char`
(code points); JavaScript `Map`s keyed by strings are modelled as functions
`List Char → Option _`; `Math.random` and `Date.now()` become explicit
parameters.  Each definition mirrors one source function and keeps its name.
-/

/-- JavaScript strings, modelled as their sequence of code points. -/
abbrev JSStr := List Char

/-- Shorthand: a Lean string literal as a `JSStr`. -/
def toL (s : String) : JSStr := s.toList

/-- Whitespace characters removed by JavaScript `String.prototype.trim`
(restricted to the common ASCII white space that can occur in playlist
documents: space, tab, CR, LF, FF, VT). -/
def isJsWhitespace (c : Char) : Bool :=
  c = ' ' || c = '\t' || c = '\n' || c = '\r' || c = Char.ofNat 12 || c = Char.ofNat 11

/-- `s.trim()`: drop whitespace from both ends. -/
def jsTrim (s : JSStr) : JSStr :=
  ((s.dropWhile isJsWhitespace).reverse.dropWhile isJsWhitespace).reverse

/-- `s.startsWith(p)`. -/
def jsStartsWith (s p : JSStr) : Bool := decide (p <+: s)

/-- `s.includes(n)`. -/
def jsIncludes (s n : JSStr) : Bool := decide (n <:+: s)

/-- `String.prototype.toLowerCase`, per character (ASCII range; the
contents checked by the validators are ASCII markers). -/
def jsToLower (c : Char) : Char :=
  if 'A' ≤ c ∧ c ≤ 'Z' then Char.ofNat (c.toNat + 32) else c

/-- `String.prototype.toUpperCase`, per character (ASCII range). -/
def jsToUpper (c : Char) : Char :=
  if 'a' ≤ c ∧ c ≤ 'z' then Char.ofNat (c.toNat - 32) else c

/-- `s.toLowerCase()`. -/
def jsToLowerStr (s : JSStr) : JSStr := s.map jsToLower

/-- `s.split('\n')`.  JavaScript returns `[""]` on the empty string. -/
def splitOnNl : JSStr → List JSStr
  | [] => [[]]
  | c :: t =>
    if c = '\n' then [] :: splitOnNl t
    else
      match splitOnNl t with
      | [] => [[c]]
      | h :: r => (c :: h) :: r

/-- `s.split(',')`. -/
def splitOnComma : JSStr → List JSStr
  | [] => [[]]
  | c :: t =>
    if c = ',' then [] :: splitOnComma t
    else
      match splitOnComma t with
      | [] => [[c]]
      | h :: r => (c :: h) :: r

/-- `lines.join('\n')` (also `Array.prototype.join`). -/
def joinLines : List JSStr → JSStr
  | [] => []
  | [l] => l
  | l :: ls => l ++ '\n' :: joinLines ls

/-- Worker for `replaceAll`: scans the haystack left to right; on each
match of the (nonempty) needle, emits the replacement and jumps past the
matched text, exactly like a `/…/g` literal-string regex replacement. -/
def replaceAllGo (needle repl : JSStr) : Nat → JSStr → JSStr
  | 0, hay => hay
  | fuel + 1, hay =>
    if hay = [] then []
    else if jsStartsWith hay needle then
      repl ++ replaceAllGo needle repl fuel (hay.drop needle.length)
    else
      match hay with
      | [] => []
      | c :: t => c :: replaceAllGo needle repl fuel t

/-- `s.replace(/needle/g, repl)` for a literal (regex-free, nonempty)
needle. -/
def replaceAll (hay needle repl : JSStr) : JSStr :=
  if needle = [] then hay else replaceAllGo needle repl hay.length hay

/-- The decimal digit characters used by `Number.prototype.toString()`. -/
def digitChar (n : Nat) : Char := Char.ofNat (48 + n)

/-- Worker for `natToString`, with explicit fuel (the recursion divides by
ten, so any fuel above the number itself suffices). -/
def natToStringGo : Nat → Nat → JSStr
  | 0, _ => []
  | fuel + 1, n =>
    if n < 10 then [digitChar n]
    else natToStringGo fuel (n / 10) ++ [digitChar (n % 10)]

/-- `n.toString()` for a nonnegative JavaScript number holding an integer:
its decimal digits. -/
def natToString (n : Nat) : JSStr := natToStringGo (n + 1) n

theorem natToStringGo_congr :
    ∀ f₁ f₂ n, n < f₁ → n < f₂ → natToStringGo f₁ n = natToStringGo f₂ n := by
  intro f₁
  induction f₁ with
  | zero => intro f₂ n h; omega
  | succ f ih =>
    intro f₂ n h₁ h₂
    cases f₂ with
    | zero => omega
    | succ f' =>
      simp only [natToStringGo]
      by_cases hn : n < 10
      · simp [hn]
      · have hd : n / 10 < n := Nat.div_lt_self (by omega) (by omega)
        simp only [if_neg hn]
        rw [ih f' (n / 10) (by omega) (by omega)]

theorem natToStringGo_ne_nil {f n : Nat} (h : n < f) :
    natToStringGo f n ≠ [] := by
  cases f with
  | zero => omega
  | succ f =>
    simp only [natToStringGo]
    by_cases hn : n < 10 <;> simp [hn]

theorem digitChar_inj {a b : Nat} (ha : a < 10) (hb : b < 10)
    (h : digitChar a = digitChar b) : a = b := by
  interval_cases a <;> interval_cases b <;> simp_all [digitChar]

theorem natToStringGo_inj :
    ∀ f a b, a < f → b < f → natToStringGo f a = natToStringGo f b → a = b := by
  intro f
  induction f with
  | zero => intro a b h; omega
  | succ f ih =>
    intro a b ha hb h
    simp only [natToStringGo] at h
    by_cases ha10 : a < 10 <;> by_cases hb10 : b < 10
    · simp only [if_pos ha10, if_pos hb10, List.cons.injEq] at h
      exact digitChar_inj ha10 hb10 h.1
    · exfalso
      simp only [if_pos ha10, if_neg hb10] at h
      have hb0 : b / 10 < f := by
        have : b / 10 < b := Nat.div_lt_self (by omega) (by omega)
        omega
      have hne := natToStringGo_ne_nil hb0
      cases hgo : natToStringGo f (b / 10) with
      | nil => exact hne hgo
      | cons x xs =>
        rw [hgo] at h
        simp at h
    · exfalso
      simp only [if_neg ha10, if_pos hb10] at h
      have ha0 : a / 10 < f := by
        have : a / 10 < a := Nat.div_lt_self (by omega) (by omega)
        omega
      have hne := natToStringGo_ne_nil ha0
      cases hgo : natToStringGo f (a / 10) with
      | nil => exact hne hgo
      | cons x xs =>
        rw [hgo] at h
        simp at h
    · simp only [if_neg ha10, if_neg hb10] at h
      have hlen : (natToStringGo f (a / 10)).length = (natToStringGo f (b / 10)).length := by
        have := congrArg List.length h
        simp at this
        omega
      obtain ⟨h₁, h₂⟩ := List.append_inj h hlen
      have hda : a / 10 < f := by
        have : a / 10 < a := Nat.div_lt_self (by omega) (by omega)
        omega
      have hdb : b / 10 < f := by
        have : b / 10 < b := Nat.div_lt_self (by omega) (by omega)
        omega
      have hdiv := ih (a / 10) (b / 10) hda hdb h₁
      have hmod : a % 10 = b % 10 := by
        simp only [List.cons.injEq] at h₂
        exact digitChar_inj (Nat.mod_lt _ (by omega)) (Nat.mod_lt _ (by omega)) h₂.1
      omega

theorem natToString_inj {a b : Nat} (h : natToString a = natToString b) : a = b := by
  have ha : a < max a b + 1 := by omega
  have hb : b < max a b + 1 := by omega
  apply natToStringGo_inj (max a b + 1) a b ha hb
  rw [← natToStringGo_congr (a + 1) (max a b + 1) a (by omega) ha,
    ← natToStringGo_congr (b + 1) (max a b + 1) b (by omega) hb]
  exact h

/-! ## Service worker (`sw.js`): resource registry and playlist rewriter -/

namespace SW

/-- `PROXY_BASE` from `sw.js`. -/
def PROXY_BASE : JSStr := toL "/api/stream"

/-- The service worker's module-level mutable state: `URL_MAPPINGS`
(a `Map` from internal id to real URL, modelled as a function) and
`mappingCounter` (initially `1000`). -/
structure RegState where
  mappingCounter : Nat
  urlMappings : JSStr → Option JSStr

/-- The state at worker start: counter `1000`, empty mappings. -/
def initState : RegState := ⟨1000, fun _ => none⟩

/-- `generateId()`: returns `(mappingCounter++).toString()`. -/
def generateId (st : RegState) : JSStr × RegState :=
  (natToString st.mappingCounter, { st with mappingCounter := st.mappingCounter + 1 })

/-- `URL_MAPPINGS.set(id, url)`. -/
def setMapping (st : RegState) (id url : JSStr) : RegState :=
  { st with urlMappings := fun k => if k = id then some url else st.urlMappings k }

/-- The `REGISTER_STREAM` message handler / `register` endpoint:
allocate a fresh id and store the original URL under it. -/
def registerStream (originalUrl : JSStr) (st : RegState) : JSStr × RegState :=
  let (streamId, st') := generateId st
  (streamId, setMapping st' streamId originalUrl)

/-- A sequence of `registerStream` calls, returning the ids in call order. -/
def registerAll : List JSStr → RegState → List JSStr × RegState
  | [], st => ([], st)
  | url :: urls, st =>
    let (id, st') := registerStream url st
    let (ids, st'') := registerAll urls st'
    (id :: ids, st'')

/-- Parsed pieces of a URL, as read off the browser `URL` object. -/
structure URLParts where
  protocol : JSStr
  host : JSStr
  pathname : JSStr

/-- Modelled: the browser `URL` constructor, restricted to the http(s)
URLs this subsystem handles (no credentials; `?`/`#` terminate the host
and path); any other input models the constructor throwing as `none`. -/
def parseURL (url : JSStr) : Option URLParts :=
  let afterScheme : Option (JSStr × JSStr) :=
    if jsStartsWith url (toL "https://") then some (toL "https:", url.drop 8)
    else if jsStartsWith url (toL "http://") then some (toL "http:", url.drop 7)
    else none
  match afterScheme with
  | none => none
  | some (protocol, rest) =>
    let host := rest.takeWhile (fun ch => ch ≠ '/' && ch ≠ '?' && ch ≠ '#')
    if host = [] then none
    else
      let after := rest.drop host.length
      let pathname := after.takeWhile (fun ch => ch ≠ '?' && ch ≠ '#')
      some ⟨protocol, host, if pathname = [] then toL "/" else pathname⟩

/-- `s.substring(0, s.lastIndexOf('/') + 1)`: everything up to and
including the last slash (empty when there is no slash). -/
def takeToLastSlash (s : JSStr) : JSStr :=
  (s.reverse.dropWhile (fun ch => ch ≠ '/')).reverse

/-- `getBaseUrl(url)` from `sw.js`: protocol + host + directory part of
the path on a parsable URL, else the prefix up to the last slash. -/
def getBaseUrl (url : JSStr) : JSStr :=
  match parseURL url with
  | some u => u.protocol ++ toL "//" ++ u.host ++ takeToLastSlash u.pathname
  | none => takeToLastSlash url

/-- `u.replace(/^\//, '')`: drop one leading slash if present. -/
def dropLeadingSlash (s : JSStr) : JSStr :=
  match s with
  | '/' :: t => t
  | _ => s

/-- The URL resolution used on every reference in `processM3U8Content`:
`if (!u.startsWith('http')) u = baseUrl + u.replace(/^\//, '')`. -/
def resolveUrl (baseUrl u : JSStr) : JSStr :=
  if jsStartsWith u (toL "http") then u else baseUrl ++ dropLeadingSlash u

/-- Case-insensitive character comparison (the regex `/…/i` flag). -/
def ciEq (a b : Char) : Bool := jsToLower a = jsToLower b

/-- The regex piece `([^"]*)"`: split the input as
`capture ++ '"' :: post` at the first double quote. -/
def scanCap : JSStr → Option (JSStr × JSStr)
  | [] => none
  | ch :: t =>
    if ch = '"' then some ([], t)
    else
      match scanCap t with
      | some (cap, post) => some (ch :: cap, post)
      | none => none

/-- The regex `/URI="([^"]+)"/i` anchored at the head of the input:
returns the five matched pattern characters as they appear, the nonempty
capture, and the remainder after the closing quote. -/
def matchUriAt : JSStr → Option (JSStr × JSStr × JSStr)
  | a :: b :: c :: d :: e :: rest =>
    if ciEq a 'U' && ciEq b 'R' && ciEq c 'I' && d = '=' && e = '"' then
      match scanCap rest with
      | some (cap, post) => if cap = [] then none else some ([a, b, c, d, e], cap, post)
      | none => none
    else none
  | _ => none

/-- Leftmost match of `/URI="([^"]+)"/i` in a line: returns
`(pre, raw5, cap, post)` with the line being `pre ++ raw5 ++ cap ++ '"' :: post`. -/
def findUriMatch : JSStr → Option (JSStr × JSStr × JSStr × JSStr)
  | [] => none
  | ch :: t =>
    match matchUriAt (ch :: t) with
    | some (raw5, cap, post) => some ([], raw5, cap, post)
    | none =>
      match findUriMatch t with
      | some (pre, raw5, cap, post) => some (ch :: pre, raw5, cap, post)
      | none => none

/-- The rewriter's loop state: the shared registry plus the single-slot
`lastTag` variable. -/
structure RwState where
  reg : RegState
  lastTag : JSStr

/-- One iteration of the `processM3U8Content` loop on a raw input line:
returns the emitted line and the updated state. -/
def processLine (baseUrl : JSStr) (st : RwState) (raw : JSStr) : JSStr × RwState :=
  let line := jsTrim raw
  if line = [] then (line, st)
  else if jsStartsWith line (toL "#") then
    if jsStartsWith line (toL "#EXT-X-KEY") then
      match findUriMatch line with
      | some (pre, _raw5, cap, post) =>
        let keyUrl := resolveUrl baseUrl cap
        let (keyId, reg') := generateId st.reg
        let proxied := pre ++ toL "URI=\"" ++ PROXY_BASE ++ toL "/key/" ++ keyId ++ toL "\"" ++ post
        (proxied, ⟨setMapping reg' keyId keyUrl, toL "KEY"⟩)
      | none => (line, { st with lastTag := toL "KEY" })
    else if jsStartsWith line (toL "#EXT-X-STREAM-INF") then
      (line, { st with lastTag := toL "STREAM-INF" })
    else if jsStartsWith line (toL "#EXTINF") then
      (line, { st with lastTag := toL "EXTINF" })
    else
      (line, { st with lastTag := [] })
  else
    let targetUrl := resolveUrl baseUrl line
    let (id, reg') := generateId st.reg
    let out :=
      if st.lastTag = toL "STREAM-INF" then PROXY_BASE ++ toL "/manifest/" ++ id
      else PROXY_BASE ++ toL "/segment/" ++ id
    let newTag := if st.lastTag = toL "STREAM-INF" ∨ st.lastTag = toL "EXTINF" then [] else st.lastTag
    (out, ⟨setMapping reg' id targetUrl, newTag⟩)

/-- The whole line loop, emitting one output line per input line. -/
def processLines (baseUrl : JSStr) (st : RwState) : List JSStr → List JSStr × RwState
  | [] => ([], st)
  | l :: ls =>
    let (o, st') := processLine baseUrl st l
    let (os, st'') := processLines baseUrl st' ls
    (o :: os, st'')

/-- The trailing header fix-up: `if (!processedLines.length ||
!processedLines[0]?.startsWith('#EXTM3U')) processedLines.unshift('#EXTM3U')`. -/
def ensureHeader (out : List JSStr) : List JSStr :=
  match out with
  | [] => [toL "#EXTM3U"]
  | h :: t => if jsStartsWith h (toL "#EXTM3U") then h :: t else toL "#EXTM3U" :: h :: t

/-- `processM3U8Content` up to the final join: the processed line list and
the final loop state. -/
def processM3U8Lines (content originalUrl : JSStr) (reg : RegState) : List JSStr × RwState :=
  processLines (getBaseUrl originalUrl) ⟨reg, []⟩ (splitOnNl content)

/-- `processM3U8Content(content, originalUrl, _)` from `sw.js`: rewrite the
playlist and return the joined document plus the updated registry. -/
def processM3U8Content (content originalUrl : JSStr) (reg : RegState) : JSStr × RegState :=
  let (processedLines, st) := processM3U8Lines content originalUrl reg
  (joinLines (ensureHeader processedLines), st.reg)

/-- `isValidContent(content)` from `sw.js`. -/
def isValidContent (content : JSStr) : Bool :=
  if content = [] || content.length < 10 then false
  else if jsIncludes (jsToLowerStr content) (toL "<!doctype html")
      || jsIncludes content (toL "Access Denied")
      || jsIncludes content (toL "403 Forbidden") then false
  else jsIncludes content (toL "#EXTM3U")

end SW

/-! ## Client proxy service (`invisibleProxy.ts`, `ClientProxyService`) -/

/-- UTF-8 bytes of a code point, as used by `encodeURIComponent`. -/
def utf8Bytes (c : Char) : List Nat :=
  let n := c.toNat
  if n < 128 then [n]
  else if n < 2048 then [192 + n / 64, 128 + n % 64]
  else if n < 65536 then [224 + n / 4096, 128 + (n / 64) % 64, 128 + n % 64]
  else [240 + n / 262144, 128 + (n / 4096) % 64, 128 + (n / 64) % 64, 128 + n % 64]

/-- Uppercase hexadecimal digit. -/
def hexDigit (n : Nat) : Char :=
  if n < 10 then Char.ofNat (48 + n) else Char.ofNat (55 + n)

/-- The characters `encodeURIComponent` leaves unescaped: ASCII letters
and digits plus `- _ . ! ~ * ' ( )` (apostrophe is code 39, parens 40/41,
tilde 126). -/
def isUriUnescaped (c : Char) : Bool :=
  ('A' ≤ c && c ≤ 'Z') || ('a' ≤ c && c ≤ 'z') || ('0' ≤ c && c ≤ '9') ||
  c = '-' || c = '_' || c = '.' || c = '!' || c = Char.ofNat 126 ||
  c = '*' || c = Char.ofNat 39 || c = Char.ofNat 40 || c = Char.ofNat 41

/-- `encodeURIComponent(s)`: percent-encode every character outside the
unescaped set, using the UTF-8 bytes of the character. -/
def encodeURIComponent (s : JSStr) : JSStr :=
  s.flatMap fun c =>
    if isUriUnescaped c then [c]
    else (utf8Bytes c).flatMap fun b => ['%', hexDigit (b / 16), hexDigit (b % 16)]

namespace ClientProxy

/-- `corsProxies` from `ClientProxyService`. -/
def corsProxies : List JSStr :=
  [toL "https://corsproxy.io/?",
   toL "https://cors-anywhere.herokuapp.com/",
   toL "https://cors.bridged.cc/",
   toL "https://api.allorigins.win/raw?url="]

/-- `CACHE_TIME`: five minutes in milliseconds. -/
def CACHE_TIME : Nat := 5 * 60 * 1000

/-- The `cache` field: a `Map` from URL to `{ content, timestamp }`,
modelled as a function. -/
def Cache : Type := JSStr → Option (JSStr × Nat)

/-- `isValidContent(content, originalUrl)` from `ClientProxyService`. -/
def isValidContent (content originalUrl : JSStr) : Bool :=
  if jsIncludes (jsToLowerStr content) (toL "<!doctype html")
      || jsIncludes (jsToLowerStr content) (toL "<html")
      || jsIncludes content (toL "Access Denied")
      || jsIncludes content (toL "403 Forbidden")
      || jsIncludes content (toL "Rate limit exceeded")
      || content.length < 10 then false
  else if jsIncludes originalUrl (toL ".m3u8") && !jsIncludes content (toL "#EXTM3U") then false
  else true

/-- `setCache(url, content)` at time `now`. -/
def setCache (c : Cache) (url content : JSStr) (now : Nat) : Cache :=
  fun k => if k = url then some (content, now) else c k

/-- `getFromCache(url)` at time `now`: a fresh entry is returned as a
hit; otherwise the entry (if any) is deleted and the lookup misses. -/
def getFromCache (c : Cache) (url : JSStr) (now : Nat) : Option JSStr × Cache :=
  match c url with
  | some (content, ts) =>
    if now - ts < CACHE_TIME then (some content, c)
    else (none, fun k => if k = url then none else c k)
  | none => (none, fun k => if k = url then none else c k)

/-- The outcome of one `fetch` attempt: a thrown network error, or a
response with its `ok` flag and body text. -/
inductive FetchResult where
  | threw : FetchResult
  | resp : Bool → JSStr → FetchResult
deriving DecidableEq

/-- `true` iff the attempt completed with a success status. -/
def FetchResult.isOk : FetchResult → Bool
  | .resp true _ => true
  | _ => false

/-- The body of a completed successful attempt. -/
def FetchResult.body : FetchResult → Option JSStr
  | .resp _ b => some b
  | .threw => none

/-- The shape of `fetchWithProxy`'s result (`ProxyResponse`). -/
structure ProxyResponse where
  success : Bool
  content : Option JSStr
  error : Option JSStr
deriving DecidableEq

/-- The `for (const proxy of this.corsProxies)` loop of `fetchWithProxy`:
fetch `proxy + encodeURIComponent(url)`; on a success status validate the
body, cache and return it if accepted; on anything else move on. -/
def tryProxies (net : JSStr → FetchResult) (url : JSStr) (now : Nat) (c : Cache) :
    List JSStr → ProxyResponse × Cache
  | [] => (⟨false, none, some (toL "All proxy attempts failed")⟩, c)
  | p :: rest =>
    match net (p ++ encodeURIComponent url) with
    | .resp true body =>
      if isValidContent body url then (⟨true, some body, none⟩, setCache c url body now)
      else tryProxies net url now c rest
    | _ => tryProxies net url now c rest

/-- `fetchWithProxy(url)` from `ClientProxyService`, with the network as
an explicit function from request URL to outcome and the cache threaded
through: cache lookup, then a direct fetch (whose body is returned on any
success status, without validation), then the relay loop. -/
def fetchWithProxy (net : JSStr → FetchResult) (url : JSStr) (c₀ : Cache) (now : Nat) :
    ProxyResponse × Cache :=
  match getFromCache c₀ url now with
  | (some content, c) => (⟨true, some content, none⟩, c)
  | (none, c) =>
    match net url with
    | .resp true body => (⟨true, some body, none⟩, setCache c url body now)
    | _ => tryProxies net url now c corsProxies

/-- Statement helper: one relay attempt counts as successful when it
completes with a success status and the validator accepts its body for
this URL. -/
def accepted (r : FetchResult) (url : JSStr) : Bool :=
  match r with
  | .resp true body => isValidContent body url
  | _ => false

end ClientProxy

/-! ## Channel catalog parser (`ChannelParserService`) -/

namespace ChannelParser

/-- The `number` field of a parsed channel: the JS value is either a
number or a string. -/
inductive NumOrStr where
  | num : Nat → NumOrStr
  | str : JSStr → NumOrStr
deriving DecidableEq

/-- `ParsedChannel`. -/
structure ParsedChannel where
  name : JSStr
  number : NumOrStr
  url : JSStr
  group : JSStr
  logo : JSStr
  id : Nat
  viewers : Nat
  status : JSStr
  quality : JSStr
  description : JSStr
  category : JSStr
deriving DecidableEq

/-- `ChannelResponse`. -/
structure ChannelResponse where
  success : Bool
  message : Option JSStr
  count : Nat
  channels : List ParsedChannel
  timestamp : Nat
deriving DecidableEq

/-- The repair table of `fixTurkishEncoding`, written by code point:
`[Ã§→ç, Ã‡→Ç, ÄŸ→ğ, Ä→Ğ, Ä±→ı, Ä°→İ, Ã¶→ö, Ã–→Ö, Ã¼→ü, Ãœ→Ü, ÅŸ→ş, Åž→Ş]`. -/
def turkishFixes : List (JSStr × JSStr) :=
  [([Char.ofNat 0xC3, Char.ofNat 0xA7], [Char.ofNat 0xE7]),
   ([Char.ofNat 0xC3, Char.ofNat 0x2021], [Char.ofNat 0xC7]),
   ([Char.ofNat 0xC4, Char.ofNat 0x178], [Char.ofNat 0x11F]),
   ([Char.ofNat 0xC4], [Char.ofNat 0x11E]),
   ([Char.ofNat 0xC4, Char.ofNat 0xB1], [Char.ofNat 0x131]),
   ([Char.ofNat 0xC4, Char.ofNat 0xB0], [Char.ofNat 0x130]),
   ([Char.ofNat 0xC3, Char.ofNat 0xB6], [Char.ofNat 0xF6]),
   ([Char.ofNat 0xC3, Char.ofNat 0x2013], [Char.ofNat 0xD6]),
   ([Char.ofNat 0xC3, Char.ofNat 0xBC], [Char.ofNat 0xFC]),
   ([Char.ofNat 0xC3, Char.ofNat 0x153], [Char.ofNat 0xDC]),
   ([Char.ofNat 0xC5, Char.ofNat 0x178], [Char.ofNat 0x15F]),
   ([Char.ofNat 0xC5, Char.ofNat 0x17E], [Char.ofNat 0x15E])]

/-- `fixTurkishEncoding(text)`: apply the fixes in order. -/
def fixTurkishEncoding (text : JSStr) : JSStr :=
  turkishFixes.foldl (fun acc p => replaceAll acc p.1 p.2) text

/-- The attribute regexes `tvg-name="([^"]*)"` etc.: capture of the
leftmost occurrence of `attr="…"` (closing quote required, capture may be
empty). -/
def findAttr (attr : JSStr) : JSStr → Option JSStr
  | [] => none
  | ch :: t =>
    if jsStartsWith (ch :: t) (attr ++ toL "=\"") then
      match SW.scanCap ((ch :: t).drop (attr.length + 2)) with
      | some (cap, _) => some cap
      | none => findAttr attr t
    else findAttr attr t

/-- `categoryMap` from `normalizeCategory`. -/
def categoryMap : List (JSStr × JSStr) :=
  [(toL "Sports", toL "Spor"), (toL "Sport", toL "Spor"), (toL "Football", toL "Spor"),
   (toL "Soccer", toL "Spor"), (toL "Basketball", toL "Spor")]

/-- `normalizeCategory(category)`: table lookup with default `'Spor'`. -/
def normalizeCategory (category : JSStr) : JSStr :=
  match categoryMap.lookup category with
  | some v => v
  | none => toL "Spor"

/-- The `colors` array of `generatePlaceholderLogo`. -/
def colors : List JSStr :=
  [toL "dc2626", toL "2563eb", toL "059669", toL "db2777", toL "ef4444", toL "f59e0b"]

/-- `generatePlaceholderLogo(name)` (only called with a nonempty name). -/
def generatePlaceholderLogo (name : JSStr) : JSStr :=
  let initial : JSStr := match name with | [] => [] | c :: _ => [jsToUpper c]
  let color := colors.getD (name.length % colors.length) []
  toL "https://via.placeholder.com/48x48/" ++ color ++ toL "/ffffff?text="
    ++ encodeURIComponent initial

/-- `generateDescription(name, category)`. -/
def generateDescription (name _category : JSStr) : JSStr :=
  let lower := jsToLowerStr name
  if jsIncludes lower (toL "bein") then toL "beIN Sports canlı spor yayını"
  else if jsIncludes lower (toL "trt") then toL "TRT Spor canlı yayını"
  else if jsIncludes lower (toL "aspor") then toL "A Spor canlı yayını"
  else if jsIncludes lower (toL "smart") then toL "Smart Spor canlı yayını"
  else name ++ toL " canlı spor yayını"

/-- The `ranges` table of `generateViewerCount`. -/
def viewerRanges : List (JSStr × (Nat × Nat)) :=
  [(toL "Spor", (5000, 50000)), (toL "Futbol", (10000, 80000)), (toL "Basketbol", (3000, 25000))]

/-- `generateViewerCount(category)` with the `Math.random()` draw made
explicit as `r`: `Math.floor(random * (hi - lo + 1)) + lo` becomes
`lo + r % (hi - lo + 1)`. -/
def generateViewerCount (category : JSStr) (r : Nat) : Nat :=
  let range := (viewerRanges.lookup category).getD (1000, 15000)
  range.1 + r % (range.2 - range.1 + 1)

/-- `parseExtinfLine(line)`, with its one random draw `r` explicit. -/
def parseExtinfLine (line : JSStr) (r : Nat) : ParsedChannel :=
  let name₀ := match findAttr (toL "tvg-name") line with
    | some v => fixTurkishEncoding v
    | none => []
  let logo₀ := (findAttr (toL "tvg-logo") line).getD []
  let gc := match findAttr (toL "group-title") line with
    | some v => let g := fixTurkishEncoding v; (g, normalizeCategory g)
    | none => (toL "Genel", toL "Genel")
  let name := if name₀ = [] then
      match splitOnComma line with
      | _ :: p1 :: _ => fixTurkishEncoding (jsTrim p1)
      | _ => name₀
    else name₀
  let logo := if logo₀ = [] ∧ name ≠ [] then generatePlaceholderLogo name else logo₀
  { name := name, number := .num 0, url := [], group := gc.1, logo := logo, id := 0,
    viewers := generateViewerCount gc.2 r,
    status := toL "live", quality := toL "HD",
    description := generateDescription name gc.2, category := gc.2 }

/-- The line loop of `parseM3UContent`: `chId` is the `channelId`
counter, `draw` counts the `Math.random()` draws consumed so far, and
`current` is `currentChannel`. -/
def parseM3ULoop (rng : Nat → Nat) : Nat → Nat → Option ParsedChannel → List JSStr →
    List ParsedChannel
  | _, _, _, [] => []
  | chId, draw, current, raw :: rest =>
    let line := jsTrim raw
    if jsStartsWith line (toL "#EXTINF:") then
      let ch := { parseExtinfLine line (rng draw) with id := chId }
      parseM3ULoop rng (chId + 1) (draw + 1) (some ch) rest
    else if line ≠ [] ∧ ¬ jsStartsWith line (toL "#") = true ∧ current.isSome
        ∧ jsStartsWith line (toL "http") then
      match current with
      | some ch =>
        let ch' := { ch with url := line }
        if ch'.name ≠ [] ∧ ch'.url ≠ [] then ch' :: parseM3ULoop rng chId draw none rest
        else parseM3ULoop rng chId draw none rest
      | none => parseM3ULoop rng chId draw none rest
    else parseM3ULoop rng chId draw current rest

/-- `parseM3UContent(content)`. -/
def parseM3UContent (content : JSStr) (rng : Nat → Nat) : List ParsedChannel :=
  parseM3ULoop rng 1 0 none (splitOnNl content)

/-- `sportKeywords` from `filterSportChannels`. -/
def sportKeywords : List JSStr :=
  [toL "sport", toL "spor", toL "bein", toL "ssport", toL "smart", toL "trt", toL "aspor",
   toL "tivibu", toL "euroleague", toL "nba", toL "futbol", toL "football", toL "basketbol",
   toL "voleybol", toL "tenis", toL "motor", toL "formula", toL "uefa", toL "fifa",
   toL "galatasaray", toL "fenerbahce", toL "besiktas", toL "trabzonspor"]

/-- First run of decimal digits in a string (the regex `/(\d+)/`). -/
def firstDigitRun : JSStr → Option JSStr
  | [] => none
  | c :: t => if c.isDigit then some ((c :: t).takeWhile Char.isDigit) else firstDigitRun t

/-- `parseInt` on a nonempty digit string. -/
def parseIntDigits (s : JSStr) : Nat := s.foldl (fun a c => a * 10 + (c.toNat - 48)) 0

/-- `extractChannelNumber(name)`. -/
def extractChannelNumber (name : JSStr) : NumOrStr :=
  let nameLower := jsToLowerStr name
  if jsIncludes nameLower (toL "s sport 2") || jsIncludes nameLower (toL "ssport 2") then
    .str (toL "S2")
  else if jsIncludes nameLower (toL "s sport") || jsIncludes nameLower (toL "ssport") then
    .str (toL "S")
  else if jsIncludes nameLower (toL "smart") then .str (toL "SM")
  else if jsIncludes nameLower (toL "trt") then .str (toL "TRT")
  else if jsIncludes nameLower (toL "aspor") || jsIncludes nameLower (toL "a spor") then
    .str (toL "A")
  else match firstDigitRun name with
    | some ds => .num (parseIntDigits ds)
    | none => match name with | [] => .str [] | c :: _ => .str [jsToUpper c]

/-- `filterSportChannels(channels)`: keep keyword matches, then mark each
kept channel with its extracted number and the `'Spor'` category. -/
def filterSportChannels (channels : List ParsedChannel) : List ParsedChannel :=
  (channels.filter fun ch =>
    sportKeywords.any fun kw =>
      jsIncludes (jsToLowerStr ch.name) kw || jsIncludes (jsToLowerStr ch.group) kw).map
    fun ch => { ch with number := extractChannelNumber ch.name, category := toL "Spor" }

/-- Modelled: `String.prototype.localeCompare` under the `'tr'` locale,
abstracted as code-point comparison.  The claims proved below depend only
on which channels appear, never on the relative order of two
string-numbered channels, so the collation details are immaterial. -/
def trCompare : JSStr → JSStr → Int
  | [], [] => 0
  | [], _ :: _ => -1
  | _ :: _, [] => 1
  | a :: as, b :: bs =>
    if a.toNat < b.toNat then -1 else if b.toNat < a.toNat then 1 else trCompare as bs

/-- `x.toString()` on the `number` field. -/
def numToString : NumOrStr → JSStr
  | .num n => natToString n
  | .str s => s

/-- The comparator of `sortChannels`. -/
def channelCmp (a b : ParsedChannel) : Int :=
  match a.number, b.number with
  | .num x, .num y => (x : Int) - y
  | .num _, .str _ => -1
  | .str _, .num _ => 1
  | .str _, .str _ => trCompare (numToString a.number) (numToString b.number)

/-- Insertion step of the stable sort below. -/
def insertSorted {α : Type} (cmp : α → α → Int) (a : α) : List α → List α
  | [] => [a]
  | b :: t => if cmp a b ≤ 0 then a :: b :: t else b :: insertSorted cmp a t

/-- Modelled: `Array.prototype.sort(comparator)` as a stable insertion
sort. -/
def jsSortBy {α : Type} (cmp : α → α → Int) : List α → List α
  | [] => []
  | a :: t => insertSorted cmp a (jsSortBy cmp t)

/-- `sortChannels(channels)`. -/
def sortChannels (channels : List ParsedChannel) : List ParsedChannel :=
  jsSortBy channelCmp channels

/-- `getFallbackChannels()`, with `Date.now()` explicit. -/
def getFallbackChannels (now : Nat) : ChannelResponse :=
  { success := false
    message := some (toL "Kanal listesi alınamadı, varsayılan kanallar kullanılıyor")
    count := 5
    timestamp := now
    channels :=
      [{ id := 1, name := toL "beIN Sports 1 HD", number := .num 1,
         url := toL "https://tv-trtspor.medya.trt.com.tr/master.m3u8", group := toL "Spor",
         logo := toL "https://via.placeholder.com/48x48/dc2626/ffffff?text=B1",
         viewers := 25000, status := toL "live", quality := toL "HD",
         description := toL "beIN Sports 1 canlı spor yayını", category := toL "Spor" },
       { id := 2, name := toL "beIN Sports 2 HD", number := .num 2,
         url := toL "https://trkvz-live.daioncdn.net/aspor/aspor.m3u8", group := toL "Spor",
         logo := toL "https://via.placeholder.com/48x48/2563eb/ffffff?text=B2",
         viewers := 20000, status := toL "live", quality := toL "HD",
         description := toL "beIN Sports 2 canlı spor yayını", category := toL "Spor" },
       { id := 3, name := toL "TRT Spor HD", number := .str (toL "TRT"),
         url := toL "https://tv-trtspor.medya.trt.com.tr/master.m3u8", group := toL "Spor",
         logo := toL "https://via.placeholder.com/48x48/059669/ffffff?text=T",
         viewers := 18000, status := toL "live", quality := toL "HD",
         description := toL "TRT Spor canlı yayını", category := toL "Spor" },
       { id := 4, name := toL "A Spor HD", number := .str (toL "A"),
         url := toL "https://trkvz-live.daioncdn.net/aspor/aspor.m3u8", group := toL "Spor",
         logo := toL "https://via.placeholder.com/48x48/db2777/ffffff?text=A",
         viewers := 15000, status := toL "live", quality := toL "HD",
         description := toL "A Spor canlı yayını", category := toL "Spor" },
       { id := 5, name := toL "Smart Spor HD", number := .str (toL "SM"),
         url := toL "https://tv-trtspor.medya.trt.com.tr/master.m3u8", group := toL "Spor",
         logo := toL "https://via.placeholder.com/48x48/ef4444/ffffff?text=S",
         viewers := 12000, status := toL "live", quality := toL "HD",
         description := toL "Smart Spor canlı yayını", category := toL "Spor" }] }

/-- `fetchAndParseChannels()` on a cache miss, with the fetched document,
the `Math.random()` draws and `Date.now()` as parameters.  The `try`
block throws — and the `catch` substitutes `getFallbackChannels()` —
exactly when the fetched content lacks the `#EXTINF` marker; otherwise it
parses, filters, sorts, limits to 50 channels, and reports success. -/
def fetchAndParseChannels (content : JSStr) (rng : Nat → Nat) (now : Nat) : ChannelResponse :=
  if ¬ jsIncludes content (toL "#EXTINF") then getFallbackChannels now
  else
    let channels := parseM3UContent content rng
    let sportChannels := filterSportChannels channels
    let sortedChannels := sortChannels sportChannels
    let limitedChannels := sortedChannels.take 50
    { success := true, message := none, count := limitedChannels.length,
      channels := limitedChannels, timestamp := now }

end ChannelParser

/-! ## Bridging lemmas -/

theorem jsStartsWith_iff {s p : JSStr} : jsStartsWith s p = true ↔ p <+: s := by
  simp [jsStartsWith]

theorem jsIncludes_iff {s n : JSStr} : jsIncludes s n = true ↔ n <:+: s := by
  simp [jsIncludes]

theorem infix_map {n s : JSStr} (f : Char → Char) (h : n <:+: s) :
    n.map f <:+: s.map f := by
  obtain ⟨u, v, huv⟩ := h
  exact ⟨u.map f, v.map f, by rw [← huv]; simp⟩

theorem head_prefix_joinLines (h : JSStr) (t : List JSStr) : h <+: joinLines (h :: t) := by
  cases t with
  | nil => simp [joinLines]
  | cons x xs => exact ⟨'\n' :: joinLines (x :: xs), rfl⟩

/-! ## C7: the emitted document always begins with the `#EXTM3U` marker -/

theorem processM3U8Content_fst (content originalUrl : JSStr) (reg : SW.RegState) :
    (SW.processM3U8Content content originalUrl reg).1
      = joinLines (SW.ensureHeader (SW.processM3U8Lines content originalUrl reg).1) := rfl

/-- C7: for every input document (empty, headerless, or otherwise) and
every starting registry state, the document emitted by
`processM3U8Content` begins with the `#EXTM3U` playlist header marker;
`ensureHeader` inserts it as the first line whenever the processed output
does not already start with it. -/
theorem C7_emitted_document_begins_with_header
    (content originalUrl : JSStr) (reg : SW.RegState) :
    jsStartsWith (SW.processM3U8Content content originalUrl reg).1 (toL "#EXTM3U") = true := by
  rw [processM3U8Content_fst, jsStartsWith_iff]
  generalize (SW.processM3U8Lines content originalUrl reg).1 = pl
  unfold SW.ensureHeader
  cases pl with
  | nil => simp [joinLines]
  | cons h t =>
    by_cases hh : jsStartsWith h (toL "#EXTM3U") = true
    · simp only [hh, if_true]
      exact (jsStartsWith_iff.mp hh).trans (head_prefix_joinLines h t)
    · simp only [hh, if_false, Bool.false_eq_true]
      exact (List.prefix_refl _).trans (head_prefix_joinLines _ _)

/-! ## C6: what the content validators reject -/

/-- C6: both content validators are total Lean functions (so they cannot
throw), and each rejects: any body containing `<!DOCTYPE html>` whatever
its length; any body below the ten-character minimum length (hence any
5-byte body); and, for playlist validation (`sw.js` always, the client
proxy whenever the URL marks the content as a playlist via `.m3u8`), any
body missing the `#EXTM3U` header marker. -/
theorem C6_validator_rejects_disguised_failures (content url : JSStr) :
    (jsIncludes content (toL "<!DOCTYPE html>") = true → SW.isValidContent content = false) ∧
    (content.length < 10 → SW.isValidContent content = false) ∧
    (jsIncludes content (toL "#EXTM3U") = false → SW.isValidContent content = false) ∧
    (jsIncludes content (toL "<!DOCTYPE html>") = true →
      ClientProxy.isValidContent content url = false) ∧
    (content.length < 10 → ClientProxy.isValidContent content url = false) ∧
    (jsIncludes url (toL ".m3u8") = true → jsIncludes content (toL "#EXTM3U") = false →
      ClientProxy.isValidContent content url = false) := by
  have hlow : jsIncludes content (toL "<!DOCTYPE html>") = true →
      jsIncludes (jsToLowerStr content) (toL "<!doctype html") = true := by
    intro h
    apply jsIncludes_iff.mpr
    have h2 := infix_map jsToLower (jsIncludes_iff.mp h)
    exact List.IsInfix.trans (by decide) h2
  refine ⟨?_, ?_, ?_, ?_, ?_, ?_⟩
  · intro h
    unfold SW.isValidContent
    split
    · rfl
    · simp [hlow h]
  · intro h
    unfold SW.isValidContent
    split
    · rfl
    · next hc =>
      exfalso
      simp at hc
      omega
  · intro h
    unfold SW.isValidContent
    split
    · rfl
    · split
      · rfl
      · exact h
  · intro h
    unfold ClientProxy.isValidContent
    split
    · rfl
    · next hc =>
      exfalso
      simp [hlow h] at hc
  · intro h
    unfold ClientProxy.isValidContent
    split
    · rfl
    · next hc =>
      exfalso
      simp [h] at hc
  · intro hu hm
    unfold ClientProxy.isValidContent
    split
    · rfl
    · simp [hu, hm]

/-- Concrete instances of C6: an HTML error page, a 5-byte body, and a
headerless playlist body are all rejected. -/
theorem C6_validator_witness :
    SW.isValidContent (toL "<!DOCTYPE html><html>Error 502</html>") = false ∧
    SW.isValidContent (toL "12345") = false ∧
    ClientProxy.isValidContent (toL "12345") (toL "http://x/a.m3u8") = false ∧
    ClientProxy.isValidContent
      (toL "#EXT-X-VERSION:3\nsegment1.ts\nsegment2.ts\nsegment3.ts")
      (toL "http://x/a.m3u8") = false := by
  refine ⟨?_, ?_, ?_, ?_⟩
  · exact (C6_validator_rejects_disguised_failures
      (toL "<!DOCTYPE html><html>Error 502</html>") (toL "u")).1 (by decide)
  · exact (C6_validator_rejects_disguised_failures (toL "12345") (toL "u")).2.1 (by decide)
  · exact (C6_validator_rejects_disguised_failures (toL "12345")
      (toL "http://x/a.m3u8")).2.2.2.2.1 (by decide)
  · exact (C6_validator_rejects_disguised_failures
      (toL "#EXT-X-VERSION:3\nsegment1.ts\nsegment2.ts\nsegment3.ts")
      (toL "http://x/a.m3u8")).2.2.2.2.2 (by decide) (by decide)

/-! ## Step lemmas for the rewriter loop -/

theorem prefix_total {α : Type} {p q s : List α} (hp : p <+: s) (hq : q <+: s) :
    p <+: q ∨ q <+: p := by
  rcases Nat.le_total p.length q.length with h | h
  · left
    have hp' := List.prefix_iff_eq_take.mp hp
    have hq' := List.prefix_iff_eq_take.mp hq
    rw [List.prefix_iff_eq_take, hq', List.take_take, Nat.min_eq_left h, ← hp']
  · right
    have hp' := List.prefix_iff_eq_take.mp hp
    have hq' := List.prefix_iff_eq_take.mp hq
    rw [List.prefix_iff_eq_take, hp', List.take_take, Nat.min_eq_left h, ← hq']

theorem jsStartsWith_false_of_incomp {s p q : JSStr} (hp : jsStartsWith s p = true)
    (h1 : ¬ q <+: p) (h2 : ¬ p <+: q) : jsStartsWith s q = false := by
  cases hsw : jsStartsWith s q with
  | false => rfl
  | true =>
    rcases prefix_total (jsStartsWith_iff.mp hp) (jsStartsWith_iff.mp hsw) with h | h
    · exact absurd h h2
    · exact absurd h h1

theorem jsStartsWith_of_trans {s p q : JSStr} (hp : jsStartsWith s p = true)
    (h : q <+: p) : jsStartsWith s q = true :=
  jsStartsWith_iff.mpr (h.trans (jsStartsWith_iff.mp hp))

/-- Blank (after trimming) lines pass through with the state untouched. -/
theorem processLine_blank (baseUrl : JSStr) (st : SW.RwState) (raw : JSStr)
    (h : jsTrim raw = []) : SW.processLine baseUrl st raw = ([], st) := by
  simp [SW.processLine, h]

/-- A non-blank, non-`#` line is a URI reference: it is emitted as a
manifest reference when `lastTag` is `STREAM-INF` and as a segment
reference otherwise, the resolved target is registered under the fresh
id, and `lastTag` is consumed. -/
theorem processLine_uri (baseUrl : JSStr) (st : SW.RwState) (raw : JSStr)
    (hne : jsTrim raw ≠ []) (hns : jsStartsWith (jsTrim raw) (toL "#") = false) :
    SW.processLine baseUrl st raw =
      ((if st.lastTag = toL "STREAM-INF"
          then SW.PROXY_BASE ++ toL "/manifest/" ++ natToString st.reg.mappingCounter
          else SW.PROXY_BASE ++ toL "/segment/" ++ natToString st.reg.mappingCounter),
       ⟨SW.setMapping { st.reg with mappingCounter := st.reg.mappingCounter + 1 }
          (natToString st.reg.mappingCounter) (SW.resolveUrl baseUrl (jsTrim raw)),
        if st.lastTag = toL "STREAM-INF" ∨ st.lastTag = toL "EXTINF"
          then [] else st.lastTag⟩) := by
  simp [SW.processLine, SW.generateId, hne, hns]

/-- A (trimmed) `#EXT-X-STREAM-INF` directive passes through unchanged
and arms `lastTag` with `STREAM-INF`. -/
theorem processLine_streamInf (baseUrl : JSStr) (st : SW.RwState) (raw : JSStr)
    (h : jsStartsWith (jsTrim raw) (toL "#EXT-X-STREAM-INF") = true) :
    SW.processLine baseUrl st raw = (jsTrim raw, { st with lastTag := toL "STREAM-INF" }) := by
  have hne : jsTrim raw ≠ [] := by
    intro hn
    rw [hn] at h
    exact absurd h (by decide)
  have hsharp : jsStartsWith (jsTrim raw) (toL "#") = true :=
    jsStartsWith_of_trans h (by decide)
  have hkey : jsStartsWith (jsTrim raw) (toL "#EXT-X-KEY") = false :=
    jsStartsWith_false_of_incomp h (by decide) (by decide)
  simp [SW.processLine, hne, hsharp, hkey, h]

/-- A (trimmed) `#EXTINF` directive passes through unchanged and arms
`lastTag` with `EXTINF`. -/
theorem processLine_extinf (baseUrl : JSStr) (st : SW.RwState) (raw : JSStr)
    (h : jsStartsWith (jsTrim raw) (toL "#EXTINF") = true) :
    SW.processLine baseUrl st raw = (jsTrim raw, { st with lastTag := toL "EXTINF" }) := by
  have hne : jsTrim raw ≠ [] := by
    intro hn
    rw [hn] at h
    exact absurd h (by decide)
  have hsharp : jsStartsWith (jsTrim raw) (toL "#") = true :=
    jsStartsWith_of_trans h (by decide)
  have hkey : jsStartsWith (jsTrim raw) (toL "#EXT-X-KEY") = false :=
    jsStartsWith_false_of_incomp h (by decide) (by decide)
  have hsi : jsStartsWith (jsTrim raw) (toL "#EXT-X-STREAM-INF") = false :=
    jsStartsWith_false_of_incomp h (by decide) (by decide)
  simp [SW.processLine, hne, hsharp, hkey, hsi, h]

/-- Any other directive line (starting with `#` but not a key,
variant-stream or segment-duration directive) passes through unchanged
and clears `lastTag`. -/
theorem processLine_otherDirective (baseUrl : JSStr) (st : SW.RwState) (raw : JSStr)
    (hsharp : jsStartsWith (jsTrim raw) (toL "#") = true)
    (hkey : jsStartsWith (jsTrim raw) (toL "#EXT-X-KEY") = false)
    (hsi : jsStartsWith (jsTrim raw) (toL "#EXT-X-STREAM-INF") = false)
    (hin : jsStartsWith (jsTrim raw) (toL "#EXTINF") = false) :
    SW.processLine baseUrl st raw = (jsTrim raw, { st with lastTag := [] }) := by
  have hne : jsTrim raw ≠ [] := by
    intro hn
    rw [hn] at hsharp
    exact absurd hsharp (by decide)
  simp [SW.processLine, hne, hsharp, hkey, hsi, hin]

/-! ## Key-directive handling -/


theorem scanCap_decomp :
    ∀ {l cap post : JSStr}, SW.scanCap l = some (cap, post) → l = cap ++ '"' :: post := by
  intro l
  induction l with
  | nil => intro cap post h; simp [SW.scanCap] at h
  | cons ch t ih =>
    intro cap post h
    unfold SW.scanCap at h
    by_cases hq : ch = '"'
    · subst hq
      rw [if_pos rfl] at h
      simp only [Option.some.injEq, Prod.mk.injEq] at h
      rw [← h.1, ← h.2]
      rfl
    · simp only [if_neg hq] at h
      cases hsc : SW.scanCap t with
      | none => rw [hsc] at h; simp at h
      | some x =>
        obtain ⟨cap', post'⟩ := x
        rw [hsc] at h
        simp at h
        rw [← h.1, ← h.2]
        simpa using congrArg (ch :: ·) (ih hsc)

theorem matchUriAt_decomp {l raw5 cap post : JSStr}
    (h : SW.matchUriAt l = some (raw5, cap, post)) :
    l = raw5 ++ cap ++ '"' :: post ∧ cap ≠ [] := by
  match l with
  | [] => simp [SW.matchUriAt] at h
  | [a] => simp [SW.matchUriAt] at h
  | [a, b] => simp [SW.matchUriAt] at h
  | [a, b, c] => simp [SW.matchUriAt] at h
  | [a, b, c, d] => simp [SW.matchUriAt] at h
  | a :: b :: c :: d :: e :: rest =>
    simp only [SW.matchUriAt] at h
    by_cases hci : (SW.ciEq a 'U' && SW.ciEq b 'R' && SW.ciEq c 'I'
        && decide (d = '=') && decide (e = '"')) = true
    · rw [if_pos hci] at h
      cases hsc : SW.scanCap rest with
      | none => rw [hsc] at h; simp at h
      | some x =>
        obtain ⟨cap', post'⟩ := x
        rw [hsc] at h
        by_cases hcap : cap' = []
        · simp [hcap] at h
        · simp only [hcap, if_neg, Option.some.injEq, Prod.mk.injEq, if_false] at h
          obtain ⟨h5, hc, hp⟩ := h
          subst hc
          subst hp
          rw [← h5]
          refine ⟨?_, hcap⟩
          have hd := scanCap_decomp hsc
          simp [hd]
    · rw [if_neg hci] at h
      simp at h

/-- A (trimmed) key directive whose URI attribute matches
`/URI="([^"]+)"/i`: the attribute is rewritten to the proxied key
reference, the resolved key URL is registered under the fresh id, and
`lastTag` becomes `KEY`. -/
theorem processLine_key_match (baseUrl : JSStr) (st : SW.RwState) (raw : JSStr)
    {pre raw5 cap post : JSStr}
    (hkey : jsStartsWith (jsTrim raw) (toL "#EXT-X-KEY") = true)
    (hm : SW.findUriMatch (jsTrim raw) = some (pre, raw5, cap, post)) :
    SW.processLine baseUrl st raw =
      (pre ++ toL "URI=\"" ++ SW.PROXY_BASE ++ toL "/key/"
          ++ natToString st.reg.mappingCounter ++ toL "\"" ++ post,
       ⟨SW.setMapping { st.reg with mappingCounter := st.reg.mappingCounter + 1 }
          (natToString st.reg.mappingCounter) (SW.resolveUrl baseUrl cap),
        toL "KEY"⟩) := by
  have hne : jsTrim raw ≠ [] := by
    intro hn
    rw [hn] at hkey
    exact absurd hkey (by decide)
  have hsharp : jsStartsWith (jsTrim raw) (toL "#") = true :=
    jsStartsWith_of_trans hkey (by decide)
  simp [SW.processLine, SW.generateId, hne, hsharp, hkey, hm]

/-- A (trimmed) key directive with no `/URI="([^"]+)"/i` match passes
through unrewritten; only `lastTag` becomes `KEY`. -/
theorem processLine_key_nomatch (baseUrl : JSStr) (st : SW.RwState) (raw : JSStr)
    (hkey : jsStartsWith (jsTrim raw) (toL "#EXT-X-KEY") = true)
    (hm : SW.findUriMatch (jsTrim raw) = none) :
    SW.processLine baseUrl st raw = (jsTrim raw, { st with lastTag := toL "KEY" }) := by
  have hne : jsTrim raw ≠ [] := by
    intro hn
    rw [hn] at hkey
    exact absurd hkey (by decide)
  have hsharp : jsStartsWith (jsTrim raw) (toL "#") = true :=
    jsStartsWith_of_trans hkey (by decide)
  simp [SW.processLine, hne, hsharp, hkey, hm]

theorem findUriMatch_decomp :
    ∀ {l pre raw5 cap post : JSStr},
    SW.findUriMatch l = some (pre, raw5, cap, post) →
    l = pre ++ raw5 ++ cap ++ '"' :: post ∧ cap ≠ [] := by
  intro l
  induction l with
  | nil => intro pre raw5 cap post h; simp [SW.findUriMatch] at h
  | cons ch t ih =>
    intro pre raw5 cap post h
    unfold SW.findUriMatch at h
    cases hma : SW.matchUriAt (ch :: t) with
    | some x =>
      obtain ⟨raw5', cap', post'⟩ := x
      rw [hma] at h
      simp only [Option.some.injEq, Prod.mk.injEq] at h
      obtain ⟨hp, h5, hc, hpo⟩ := h
      subst hp; subst h5; subst hc; subst hpo
      obtain ⟨hd, hcap⟩ := matchUriAt_decomp hma
      exact ⟨by simpa using hd, hcap⟩
    | none =>
      rw [hma] at h
      cases hf : SW.findUriMatch t with
      | none => rw [hf] at h; simp at h
      | some y =>
        obtain ⟨pre', raw5', cap', post'⟩ := y
        rw [hf] at h
        simp only [Option.some.injEq, Prod.mk.injEq] at h
        obtain ⟨hp, h5, hc, hpo⟩ := h
        subst h5; subst hc; subst hpo
        obtain ⟨hd, hcap⟩ := ih hf
        refine ⟨?_, hcap⟩
        rw [← hp]
        simpa using congrArg (ch :: ·) hd

/-! ## C8: key-directive URI rewriting -/

/-- C8: for a key directive line (after trimming) whose URI attribute
matches the quoted-string pattern, the rewriter resolves the captured URI
against the base URL when relative, registers it under a fresh id served
at the `/key/` path, and re-emits the directive with only the matched URI
attribute replaced by the `{proxyBase}/key/{id}` reference (the text
before and after the matched attribute — every other attribute — is
unchanged); a key directive whose attribute is malformed (no match, e.g.
a missing closing quote) is emitted unrewritten. -/
theorem C8_key_directive_rewriting (baseUrl raw : JSStr) (st : SW.RwState)
    (hkey : jsStartsWith (jsTrim raw) (toL "#EXT-X-KEY") = true) :
    (∀ pre raw5 cap post,
      SW.findUriMatch (jsTrim raw) = some (pre, raw5, cap, post) →
      jsTrim raw = pre ++ raw5 ++ cap ++ '"' :: post ∧
      (SW.processLine baseUrl st raw).1
        = pre ++ toL "URI=\"" ++ SW.PROXY_BASE ++ toL "/key/"
            ++ natToString st.reg.mappingCounter ++ toL "\"" ++ post ∧
      (SW.processLine baseUrl st raw).2.reg.urlMappings (natToString st.reg.mappingCounter)
        = some (SW.resolveUrl baseUrl cap) ∧
      (SW.processLine baseUrl st raw).2.lastTag = toL "KEY") ∧
    (SW.findUriMatch (jsTrim raw) = none →
      SW.processLine baseUrl st raw = (jsTrim raw, { st with lastTag := toL "KEY" })) := by
  constructor
  · intro pre raw5 cap post hm
    refine ⟨(findUriMatch_decomp hm).1, ?_, ?_, ?_⟩
    · rw [processLine_key_match baseUrl st raw hkey hm]
    · rw [processLine_key_match baseUrl st raw hkey hm]
      simp [SW.setMapping]
    · rw [processLine_key_match baseUrl st raw hkey hm]
  · intro hm
    exact processLine_key_nomatch baseUrl st raw hkey hm

/-- Concrete instances of C8: a well-formed key directive has exactly its
URI attribute rewritten to a `/key/` reference with the key URL
registered, and a key directive missing its closing quote passes through
unrewritten. -/
theorem C8_key_directive_witness :
    (SW.processLine (toL "https://h.example/live/") ⟨⟨1000, fun _ => none⟩, []⟩
        (toL "#EXT-X-KEY:METHOD=AES-128,URI=\"key.bin\",IV=0x9f")).1
      = toL "#EXT-X-KEY:METHOD=AES-128,URI=\"/api/stream/key/1000\",IV=0x9f" ∧
    (SW.processLine (toL "https://h.example/live/") ⟨⟨1000, fun _ => none⟩, []⟩
        (toL "#EXT-X-KEY:METHOD=AES-128,URI=\"key.bin\",IV=0x9f")).2.reg.urlMappings (toL "1000")
      = some (toL "https://h.example/live/key.bin") ∧
    (SW.processLine (toL "https://h.example/live/") ⟨⟨1000, fun _ => none⟩, []⟩
        (toL "#EXT-X-KEY:METHOD=AES-128,URI=\"key.bin")).1
      = toL "#EXT-X-KEY:METHOD=AES-128,URI=\"key.bin" := by
  have h := C8_key_directive_rewriting (toL "https://h.example/live/")
    (toL "#EXT-X-KEY:METHOD=AES-128,URI=\"key.bin\",IV=0x9f")
    ⟨⟨1000, fun _ => none⟩, []⟩ (by decide)
  have hm := h.1 (toL "#EXT-X-KEY:METHOD=AES-128,") (toL "URI=\"") (toL "key.bin")
    (toL ",IV=0x9f") (by decide)
  have h2 := C8_key_directive_rewriting (toL "https://h.example/live/")
    (toL "#EXT-X-KEY:METHOD=AES-128,URI=\"key.bin")
    ⟨⟨1000, fun _ => none⟩, []⟩ (by decide)
  have hn := h2.2 (by decide)
  refine ⟨?_, ?_, ?_⟩
  · rw [hm.2.1]
    decide
  · have hid : natToString 1000 = toL "1000" := by decide
    rw [← hid]
    rw [hm.2.2.1]
    decide
  · rw [hn]
    decide

/-! ## C10: root-relative URI lines join the base directory, not the host root -/

/-- C10: a URI line beginning with `/` is registered as the base
directory URL concatenated with the path minus its leading slash (never
resolved against the host root): with base URL
`https://h.example/live/a/` (as computed by `getBaseUrl` from the
manifest URL), the line `/seg.ts` registers
`https://h.example/live/a/seg.ts`, not `https://h.example/seg.ts`. -/
theorem C10_root_relative_resolution (baseUrl raw rest : JSStr) (st : SW.RwState)
    (h : jsTrim raw = '/' :: rest) :
    (SW.processLine baseUrl st raw).2.reg.urlMappings (natToString st.reg.mappingCounter)
        = some (baseUrl ++ rest) ∧
    SW.getBaseUrl (toL "https://h.example/live/a/x.m3u8") = toL "https://h.example/live/a/" ∧
    SW.resolveUrl (SW.getBaseUrl (toL "https://h.example/live/a/x.m3u8")) (toL "/seg.ts")
        = toL "https://h.example/live/a/seg.ts" ∧
    SW.resolveUrl (SW.getBaseUrl (toL "https://h.example/live/a/x.m3u8")) (toL "/seg.ts")
        ≠ toL "https://h.example/seg.ts" := by
  refine ⟨?_, by decide, by decide, by decide⟩
  have hne : jsTrim raw ≠ [] := by rw [h]; simp
  have hns : jsStartsWith (jsTrim raw) (toL "#") = false := by
    rw [h]
    show jsStartsWith ('/' :: rest) ('#' :: []) = false
    simp [jsStartsWith, List.cons_prefix_cons]
  rw [processLine_uri baseUrl st raw hne hns]
  have hhttp : jsStartsWith ('/' :: rest) (toL "http") = false := by
    show jsStartsWith ('/' :: rest) ('h' :: toL "ttp") = false
    simp [jsStartsWith, List.cons_prefix_cons]
  simp [SW.setMapping, SW.resolveUrl, hhttp, h, SW.dropLeadingSlash]

/-- Concrete instance of C10: rewriting `/seg.ts` inside a manifest
fetched from `https://h.example/live/a/x.m3u8` registers
`https://h.example/live/a/seg.ts`. -/
theorem C10_root_relative_witness :
    (SW.processLine (toL "https://h.example/live/a/") ⟨⟨1000, fun _ => none⟩, []⟩
        (toL "/seg.ts")).2.reg.urlMappings (natToString 1000)
      = some (toL "https://h.example/live/a/" ++ toL "seg.ts") :=
  (C10_root_relative_resolution (toL "https://h.example/live/a/") (toL "/seg.ts")
    (toL "seg.ts") ⟨⟨1000, fun _ => none⟩, []⟩ (by decide)).1

/-! ## C1: pending reference kind across directive lines -/

theorem processLines_nil (baseUrl : JSStr) (st : SW.RwState) :
    SW.processLines baseUrl st [] = ([], st) := rfl

theorem processLines_cons (baseUrl : JSStr) (st : SW.RwState) (l : JSStr) (ls : List JSStr) :
    SW.processLines baseUrl st (l :: ls)
      = ((SW.processLine baseUrl st l).1
           :: (SW.processLines baseUrl (SW.processLine baseUrl st l).2 ls).1,
         (SW.processLines baseUrl (SW.processLine baseUrl st l).2 ls).2) := rfl

theorem processLines_append (baseUrl : JSStr) :
    ∀ (xs ys : List JSStr) (st : SW.RwState),
    SW.processLines baseUrl st (xs ++ ys)
      = ((SW.processLines baseUrl st xs).1
           ++ (SW.processLines baseUrl (SW.processLines baseUrl st xs).2 ys).1,
         (SW.processLines baseUrl (SW.processLines baseUrl st xs).2 ys).2) := by
  intro xs
  induction xs with
  | nil => intro ys st; simp [processLines_nil]
  | cons x xs ih =>
    intro ys st
    rw [List.cons_append, processLines_cons, ih, processLines_cons]
    rfl

/-- After processing any directive line that is not a variant-stream
declaration, `lastTag` is never `STREAM-INF`. -/
theorem processLine_tag_ne_streamInf (baseUrl : JSStr) (st : SW.RwState) (raw : JSStr)
    (hsharp : jsStartsWith (jsTrim raw) (toL "#") = true)
    (hsi : jsStartsWith (jsTrim raw) (toL "#EXT-X-STREAM-INF") = false) :
    (SW.processLine baseUrl st raw).2.lastTag ≠ toL "STREAM-INF" := by
  cases hkey : jsStartsWith (jsTrim raw) (toL "#EXT-X-KEY") with
  | true =>
    cases hm : SW.findUriMatch (jsTrim raw) with
    | some x =>
      obtain ⟨pre, raw5, cap, post⟩ := x
      rw [processLine_key_match baseUrl st raw hkey hm]
      exact (by decide : toL "KEY" ≠ toL "STREAM-INF")
    | none =>
      rw [processLine_key_nomatch baseUrl st raw hkey hm]
      exact (by decide : toL "KEY" ≠ toL "STREAM-INF")
  | false =>
    cases hin : jsStartsWith (jsTrim raw) (toL "#EXTINF") with
    | true =>
      rw [processLine_extinf baseUrl st raw hin]
      exact (by decide : toL "EXTINF" ≠ toL "STREAM-INF")
    | false =>
      rw [processLine_otherDirective baseUrl st raw hsharp hkey hsi hin]
      exact (by decide : ([] : JSStr) ≠ toL "STREAM-INF")

/-- The invariant over a run of non-variant-stream directive lines:
`lastTag` ends up different from `STREAM-INF` (provided it already was,
or at least one directive is processed). -/
theorem processLines_tag_ne_streamInf (baseUrl : JSStr) :
    ∀ (mids : List JSStr) (st : SW.RwState),
    (∀ m ∈ mids, jsStartsWith (jsTrim m) (toL "#") = true ∧
      jsStartsWith (jsTrim m) (toL "#EXT-X-STREAM-INF") = false) →
    (st.lastTag ≠ toL "STREAM-INF" ∨ mids ≠ []) →
    (SW.processLines baseUrl st mids).2.lastTag ≠ toL "STREAM-INF" := by
  intro mids
  induction mids with
  | nil =>
    intro st hall hst
    rcases hst with hlt | hne
    · simpa [processLines_nil] using hlt
    · exact absurd rfl hne
  | cons m rest ih =>
    intro st hall hst
    rw [processLines_cons]
    exact ih (SW.processLine baseUrl st m).2
      (fun x hx => hall x (List.mem_cons_of_mem _ hx))
      (Or.inl (processLine_tag_ne_streamInf baseUrl st m
        (hall m (List.mem_cons_self _ _)).1 (hall m (List.mem_cons_self _ _)).2))

/-- C1 counterexample: with a directive line (`#EXT-X-VERSION:3`)
between the variant-stream declaration and its URI line, the URI line is
rewritten as a `/segment/` reference, not the `/manifest/` reference the
claim requires — an intervening directive resets the pending kind. -/
theorem C1_counterexample :
    ((SW.processLines (toL "https://h.example/live/") ⟨⟨1000, fun _ => none⟩, []⟩
        [toL "#EXT-X-STREAM-INF:BANDWIDTH=1416000", toL "#EXT-X-VERSION:3",
         toL "chunklist.m3u8"]).1.getD 2 []
      = SW.PROXY_BASE ++ toL "/segment/" ++ toL "1000") ∧
    ¬ ((SW.processLines (toL "https://h.example/live/") ⟨⟨1000, fun _ => none⟩, []⟩
        [toL "#EXT-X-STREAM-INF:BANDWIDTH=1416000", toL "#EXT-X-VERSION:3",
         toL "chunklist.m3u8"]).1.getD 2 []
      = SW.PROXY_BASE ++ toL "/manifest/" ++ toL "1000") := by
  decide

/-- C1 (amended): a variant-stream declaration arms the pending kind
(`lastTag := STREAM-INF`) and a segment-duration declaration arms it with
`EXTINF`; every other directive line passes through unchanged but RESETS
the pending kind (a key directive to the distinct `KEY` state, anything
else to empty) rather than leaving it alone; consequently, whenever one
or more other directive lines stand between a variant-stream declaration
and the following URI line, that URI line is rewritten as a segment
reference, not a manifest reference. -/
theorem C1_amended_pending_kind (baseUrl : JSStr) (st : SW.RwState) :
    (∀ raw, jsStartsWith (jsTrim raw) (toL "#EXT-X-STREAM-INF") = true →
      SW.processLine baseUrl st raw = (jsTrim raw, { st with lastTag := toL "STREAM-INF" })) ∧
    (∀ raw, jsStartsWith (jsTrim raw) (toL "#EXTINF") = true →
      SW.processLine baseUrl st raw = (jsTrim raw, { st with lastTag := toL "EXTINF" })) ∧
    (∀ raw, jsStartsWith (jsTrim raw) (toL "#") = true →
      jsStartsWith (jsTrim raw) (toL "#EXT-X-KEY") = false →
      jsStartsWith (jsTrim raw) (toL "#EXT-X-STREAM-INF") = false →
      jsStartsWith (jsTrim raw) (toL "#EXTINF") = false →
      SW.processLine baseUrl st raw = (jsTrim raw, { st with lastTag := [] })) ∧
    (∀ streamInf mids uri,
      jsStartsWith (jsTrim streamInf) (toL "#EXT-X-STREAM-INF") = true →
      mids ≠ [] →
      (∀ m ∈ mids, jsStartsWith (jsTrim m) (toL "#") = true ∧
        jsStartsWith (jsTrim m) (toL "#EXT-X-STREAM-INF") = false) →
      jsTrim uri ≠ [] →
      jsStartsWith (jsTrim uri) (toL "#") = false →
      ∃ id, (SW.processLines baseUrl st (streamInf :: mids ++ [uri])).1.getLast?
        = some (SW.PROXY_BASE ++ toL "/segment/" ++ id)) := by
  refine ⟨fun raw h => processLine_streamInf baseUrl st raw h,
    fun raw h => processLine_extinf baseUrl st raw h,
    fun raw h1 h2 h3 h4 => processLine_otherDirective baseUrl st raw h1 h2 h3 h4, ?_⟩
  intro streamInf mids uri hsi hmne hmids hune huns
  have hl : streamInf :: mids ++ [uri] = (streamInf :: mids) ++ [uri] := rfl
  have htag : (SW.processLines baseUrl st (streamInf :: mids)).2.lastTag
      ≠ toL "STREAM-INF" := by
    rw [processLines_cons]
    exact processLines_tag_ne_streamInf baseUrl mids _ hmids (Or.inr hmne)
  have h1 : (SW.processLines baseUrl st ((streamInf :: mids) ++ [uri])).1
      = (SW.processLines baseUrl st (streamInf :: mids)).1
        ++ [(SW.processLine baseUrl (SW.processLines baseUrl st (streamInf :: mids)).2 uri).1] := by
    rw [processLines_append]
    rfl
  refine ⟨natToString
    (SW.processLines baseUrl st (streamInf :: mids)).2.reg.mappingCounter, ?_⟩
  rw [hl, h1, List.getLast?_concat,
    processLine_uri baseUrl (SW.processLines baseUrl st (streamInf :: mids)).2 uri hune huns]
  simp only [if_neg htag]

/-- Concrete instances of C1 (amended): the three step behaviours and
the segment-reference consequence on a playlist with a `#EXT-X-VERSION`
directive between the variant-stream declaration and its URI. -/
theorem C1_amended_witness :
    SW.processLine (toL "b/") ⟨⟨1000, fun _ => none⟩, []⟩ (toL "#EXT-X-STREAM-INF:BANDWIDTH=1")
        = (toL "#EXT-X-STREAM-INF:BANDWIDTH=1", ⟨⟨1000, fun _ => none⟩, toL "STREAM-INF"⟩) ∧
    SW.processLine (toL "b/") ⟨⟨1000, fun _ => none⟩, []⟩ (toL "#EXTINF:10.0,")
        = (toL "#EXTINF:10.0,", ⟨⟨1000, fun _ => none⟩, toL "EXTINF"⟩) ∧
    SW.processLine (toL "b/") ⟨⟨1000, fun _ => none⟩, toL "STREAM-INF"⟩ (toL "#EXT-X-VERSION:3")
        = (toL "#EXT-X-VERSION:3", ⟨⟨1000, fun _ => none⟩, []⟩) ∧
    ∃ id, (SW.processLines (toL "b/") ⟨⟨1000, fun _ => none⟩, []⟩
        [toL "#EXT-X-STREAM-INF:BANDWIDTH=1", toL "#EXT-X-VERSION:3", toL "chunk.m3u8"]).1.getLast?
      = some (SW.PROXY_BASE ++ toL "/segment/" ++ id) := by
  refine ⟨?_, ?_, ?_, ?_⟩
  · exact (C1_amended_pending_kind (toL "b/") ⟨⟨1000, fun _ => none⟩, []⟩).1
      (toL "#EXT-X-STREAM-INF:BANDWIDTH=1") (by decide)
  · exact (C1_amended_pending_kind (toL "b/") ⟨⟨1000, fun _ => none⟩, []⟩).2.1
      (toL "#EXTINF:10.0,") (by decide)
  · exact (C1_amended_pending_kind (toL "b/") ⟨⟨1000, fun _ => none⟩, toL "STREAM-INF"⟩).2.2.1
      (toL "#EXT-X-VERSION:3") (by decide) (by decide) (by decide) (by decide)
  · exact (C1_amended_pending_kind (toL "b/") ⟨⟨1000, fun _ => none⟩, []⟩).2.2.2
      (toL "#EXT-X-STREAM-INF:BANDWIDTH=1") [toL "#EXT-X-VERSION:3"] (toL "chunk.m3u8")
      (by decide) (by decide) (by decide) (by decide) (by decide)

/-! ## C5: registry identifier uniqueness -/

theorem registerAll_nil (st : SW.RegState) : SW.registerAll [] st = ([], st) := rfl

theorem registerAll_cons (url : JSStr) (urls : List JSStr) (st : SW.RegState) :
    SW.registerAll (url :: urls) st
      = (natToString st.mappingCounter
           :: (SW.registerAll urls (SW.setMapping
                { st with mappingCounter := st.mappingCounter + 1 }
                (natToString st.mappingCounter) url)).1,
         (SW.registerAll urls (SW.setMapping
            { st with mappingCounter := st.mappingCounter + 1 }
            (natToString st.mappingCounter) url)).2) := rfl

theorem registerAll_counter_mono (urls : List JSStr) :
    ∀ st : SW.RegState,
    st.mappingCounter ≤ (SW.registerAll urls st).2.mappingCounter := by
  induction urls with
  | nil => intro st; simp [registerAll_nil]
  | cons url urls ih =>
    intro st
    rw [registerAll_cons]
    exact le_trans (Nat.le_succ _)
      (ih (SW.setMapping { st with mappingCounter := st.mappingCounter + 1 }
        (natToString st.mappingCounter) url))

theorem registerAll_preserves (urls : List JSStr) :
    ∀ (st : SW.RegState) (c : Nat), c < st.mappingCounter →
    (SW.registerAll urls st).2.urlMappings (natToString c)
      = st.urlMappings (natToString c) := by
  induction urls with
  | nil => intro st c h; simp [registerAll_nil]
  | cons url urls ih =>
    intro st c h
    rw [registerAll_cons]
    show (SW.registerAll urls (SW.setMapping
        { st with mappingCounter := st.mappingCounter + 1 }
        (natToString st.mappingCounter) url)).2.urlMappings (natToString c) = _
    rw [ih _ c (by show c < st.mappingCounter + 1; omega)]
    show (if natToString c = natToString st.mappingCounter then some url else
      st.urlMappings (natToString c)) = _
    rw [if_neg]
    intro heq
    exact absurd (natToString_inj heq) (by omega)

theorem registerAll_ids (urls : List JSStr) :
    ∀ st : SW.RegState,
    (SW.registerAll urls st).1
      = (List.range urls.length).map (fun i => natToString (st.mappingCounter + i)) := by
  induction urls with
  | nil => intro st; simp [registerAll_nil]
  | cons url urls ih =>
    intro st
    rw [registerAll_cons, ih]
    simp only [List.length_cons, List.range_succ_eq_map, List.map_cons, List.map_map]
    congr 1
    apply List.map_congr_left
    intro i _
    simp only [Function.comp_apply, SW.setMapping]
    congr 1
    omega

/-- C5: for every N ≥ 0 and every sequence of N `registerStream` calls
from any starting registry state, the N returned identifiers are pairwise
distinct, and resolving each returned identifier in the final registry
yields exactly the URL registered by the call that produced it. -/
theorem C5_registry_uniqueness (urls : List JSStr) (st : SW.RegState) :
    (SW.registerAll urls st).1.Nodup ∧
    List.Forall₂ (fun id url => (SW.registerAll urls st).2.urlMappings id = some url)
      (SW.registerAll urls st).1 urls := by
  constructor
  · rw [registerAll_ids]
    apply List.Nodup.map
    · intro a b hab
      have := natToString_inj hab
      omega
    · exact List.nodup_range _
  · induction urls generalizing st with
    | nil => simp [registerAll_nil]
    | cons url urls ih =>
      rw [registerAll_cons]
      constructor
      · show (SW.registerAll urls (SW.setMapping
            { st with mappingCounter := st.mappingCounter + 1 }
            (natToString st.mappingCounter) url)).2.urlMappings
            (natToString st.mappingCounter) = some url
        rw [registerAll_preserves urls _ st.mappingCounter
          (by show st.mappingCounter < st.mappingCounter + 1; omega)]
        show (if natToString st.mappingCounter = natToString st.mappingCounter
          then some url else st.urlMappings (natToString st.mappingCounter)) = some url
        rw [if_pos rfl]
      · exact ih _

/-! ## C3: fallback policy of the channel catalog parser -/

/-- C3 counterexample: a document that contains `#EXTINF` but whose only
channel (`CNN News`) matches no sport keyword retains zero channels, yet
the parser returns `success = true` with an EMPTY channel sequence — not
the non-`succeeded` fallback catalog the claim requires. -/
theorem C3_counterexample :
    (ChannelParser.fetchAndParseChannels
        (toL "#EXTM3U\n#EXTINF:-1,CNN News\nhttp://x/cnn.m3u8") (fun _ => 0) 0).success
      = true ∧
    (ChannelParser.fetchAndParseChannels
        (toL "#EXTM3U\n#EXTINF:-1,CNN News\nhttp://x/cnn.m3u8") (fun _ => 0) 0).channels
      = [] := by
  decide

/-- C3 (amended): the parser substitutes the fixed, hand-authored,
non-empty five-channel fallback catalog with `success = false` exactly
when the fetch/parse path throws, which in this code happens exactly when
the fetched content lacks the `#EXTINF` marker; when `#EXTINF` is present
but every parsed channel is filtered out, the parser instead returns
`success = true` with an empty channel sequence, so the
never-empty-sequence guarantee does not extend to that case. -/
theorem C3_amended_fallback_policy (content : JSStr) (rng : Nat → Nat) (now : Nat) :
    (jsIncludes content (toL "#EXTINF") = false →
      ChannelParser.fetchAndParseChannels content rng now
          = ChannelParser.getFallbackChannels now ∧
      (ChannelParser.fetchAndParseChannels content rng now).success = false ∧
      (ChannelParser.fetchAndParseChannels content rng now).channels.length = 5) ∧
    (jsIncludes content (toL "#EXTINF") = true →
      ChannelParser.filterSportChannels (ChannelParser.parseM3UContent content rng) = [] →
      (ChannelParser.fetchAndParseChannels content rng now).success = true ∧
      (ChannelParser.fetchAndParseChannels content rng now).channels = []) := by
  constructor
  · intro h
    have he : ChannelParser.fetchAndParseChannels content rng now
        = ChannelParser.getFallbackChannels now := by
      unfold ChannelParser.fetchAndParseChannels
      simp [h]
    refine ⟨he, ?_, ?_⟩ <;> rw [he] <;> rfl
  · intro h hfil
    have he : ChannelParser.fetchAndParseChannels content rng now
        = { success := true, message := none, count := 0, channels := [],
            timestamp := now } := by
      unfold ChannelParser.fetchAndParseChannels
      rw [if_neg (by simp [h])]
      simp only [hfil]
      rfl
    rw [he]
    exact ⟨rfl, rfl⟩

/-- Concrete instances of C3 (amended): a non-playlist document yields
the fallback catalog, and the all-filtered-out document yields a
successful empty catalog. -/
theorem C3_amended_witness :
    ChannelParser.fetchAndParseChannels (toL "not a playlist") (fun _ => 0) 7
        = ChannelParser.getFallbackChannels 7 ∧
    (ChannelParser.fetchAndParseChannels
        (toL "#EXTM3U\n#EXTINF:-1,CNN News\nhttp://x/cnn.m3u8") (fun _ => 1) 0).channels
      = [] := by
  constructor
  · exact ((C3_amended_fallback_policy (toL "not a playlist") (fun _ => 0) 7).1 (by decide)).1
  · exact ((C3_amended_fallback_policy
      (toL "#EXTM3U\n#EXTINF:-1,CNN News\nhttp://x/cnn.m3u8") (fun _ => 1) 0).2
      (by decide) (by decide)).2

/-! ## C4 and C9: multi-strategy fetching -/

theorem accepted_false_of_not_ok {r : ClientProxy.FetchResult} {url : JSStr}
    (h : ClientProxy.FetchResult.isOk r = false) : ClientProxy.accepted r url = false := by
  cases r with
  | threw => rfl
  | resp ok body =>
    cases ok with
    | true => simp [ClientProxy.FetchResult.isOk] at h
    | false => rfl

theorem tryProxies_all_fail (net : JSStr → ClientProxy.FetchResult) (url : JSStr) (now : Nat) :
    ∀ (ps : List JSStr) (c : ClientProxy.Cache),
    (∀ p ∈ ps, ClientProxy.accepted (net (p ++ encodeURIComponent url)) url = false) →
    ClientProxy.tryProxies net url now c ps
      = (⟨false, none, some (toL "All proxy attempts failed")⟩, c) := by
  intro ps
  induction ps with
  | nil => intro c h; rfl
  | cons p rest ih =>
    intro c h
    have hp := h p (List.mem_cons_self _ _)
    unfold ClientProxy.tryProxies
    cases hnet : net (p ++ encodeURIComponent url) with
    | threw => exact ih c fun q hq => h q (List.mem_cons_of_mem _ hq)
    | resp ok body =>
      cases ok with
      | false => exact ih c fun q hq => h q (List.mem_cons_of_mem _ hq)
      | true =>
        rw [hnet] at hp
        simp only [ClientProxy.accepted] at hp
        simp only [hp, Bool.false_eq_true, if_false]
        exact ih c fun q hq => h q (List.mem_cons_of_mem _ hq)

theorem tryProxies_first (net : JSStr → ClientProxy.FetchResult) (url : JSStr) (now : Nat) :
    ∀ (ps : List JSStr) (c : ClientProxy.Cache) (k : Nat) (p b : JSStr),
    ps[k]? = some p →
    net (p ++ encodeURIComponent url) = ClientProxy.FetchResult.resp true b →
    ClientProxy.isValidContent b url = true →
    (∀ j, j < k → ClientProxy.accepted
        (net ((ps[j]?.getD []) ++ encodeURIComponent url)) url = false) →
    ClientProxy.tryProxies net url now c ps
      = (⟨true, some b, none⟩, ClientProxy.setCache c url b now) := by
  intro ps
  induction ps with
  | nil => intro c k p b hk; simp at hk
  | cons q rest ih =>
    intro c k p b hk hnet hvalid hbefore
    cases k with
    | zero =>
      simp only [List.getElem?_cons_zero, Option.some.injEq] at hk
      subst hk
      unfold ClientProxy.tryProxies
      rw [hnet]
      simp [hvalid]
    | succ k' =>
      have h0 := hbefore 0 (Nat.succ_pos _)
      simp only [List.getElem?_cons_zero, Option.getD_some] at h0
      have hbefore' : ∀ j, j < k' → ClientProxy.accepted
          (net ((rest[j]?.getD []) ++ encodeURIComponent url)) url = false := by
        intro j hj
        have := hbefore (j + 1) (Nat.succ_lt_succ hj)
        simpa using this
      have hk' : rest[k']? = some p := by simpa using hk
      unfold ClientProxy.tryProxies
      cases hnet0 : net (q ++ encodeURIComponent url) with
      | threw => exact ih c k' p b hk' hnet hvalid hbefore'
      | resp ok body =>
        cases ok with
        | false => exact ih c k' p b hk' hnet hvalid hbefore'
        | true =>
          rw [hnet0] at h0
          simp only [ClientProxy.accepted] at h0
          simp only [h0, Bool.false_eq_true, if_false]
          exact ih c k' p b hk' hnet hvalid hbefore'

theorem getFromCache_miss_of_absent {c : ClientProxy.Cache} {url : JSStr} {now : Nat}
    (h : c url = none) : ClientProxy.getFromCache c url now = (none, c) := by
  unfold ClientProxy.getFromCache
  rw [h]
  show ((none : Option JSStr), fun k => if k = url then none else c k)
    = ((none : Option JSStr), c)
  congr 1
  funext k
  by_cases hk : k = url
  · subst hk
    simp [h]
  · simp [hk]

theorem fetchWithProxy_miss (net : JSStr → ClientProxy.FetchResult) (url : JSStr)
    (c : ClientProxy.Cache) (now : Nat)
    (hmiss : (ClientProxy.getFromCache c url now).1 = none) :
    ClientProxy.fetchWithProxy net url c now
      = (match net url with
         | .resp true body =>
           (⟨true, some body, none⟩,
            ClientProxy.setCache (ClientProxy.getFromCache c url now).2 url body now)
         | _ => ClientProxy.tryProxies net url now (ClientProxy.getFromCache c url now).2
             ClientProxy.corsProxies) := by
  unfold ClientProxy.fetchWithProxy
  rw [show ClientProxy.getFromCache c url now
      = (none, (ClientProxy.getFromCache c url now).2) from by rw [← hmiss]]

/-- C4 counterexample: a direct fetch that completes with a success
status has its body returned as a success WITHOUT consulting the
validator — here an HTML error page that `isValidContent` rejects is
nevertheless returned as the fetch result. -/
theorem C4_counterexample :
    (ClientProxy.fetchWithProxy
        (fun s => if s = toL "https://a/x.m3u8"
          then ClientProxy.FetchResult.resp true
            (toL "<!DOCTYPE html><html>Service Unavailable</html>")
          else ClientProxy.FetchResult.threw)
        (toL "https://a/x.m3u8") (fun _ => none) 0).1
      = ⟨true, some (toL "<!DOCTYPE html><html>Service Unavailable</html>"), none⟩ ∧
    ClientProxy.isValidContent (toL "<!DOCTYPE html><html>Service Unavailable</html>")
        (toL "https://a/x.m3u8") = false := by
  constructor
  · rfl
  · decide

/-- C4 (amended): on a cache miss `fetchWithProxy` tries the direct
fetch first and then the configured relays in list order; a relay's
content is returned only when the validator accepts it, and the call
fails only after the direct attempt and every relay have been tried; the
direct attempt, however, returns its body on any success status WITHOUT
validation, so validator-rejected content can be returned when the
direct transport succeeds. -/
theorem C4_amended_fetch_strategy (net : JSStr → ClientProxy.FetchResult) (url : JSStr)
    (c : ClientProxy.Cache) (now : Nat)
    (hmiss : (ClientProxy.getFromCache c url now).1 = none) :
    (∀ b, net url = ClientProxy.FetchResult.resp true b →
      (ClientProxy.fetchWithProxy net url c now).1 = ⟨true, some b, none⟩) ∧
    (ClientProxy.FetchResult.isOk (net url) = false →
      ∀ (k : Nat) (p b : JSStr), ClientProxy.corsProxies[k]? = some p →
        net (p ++ encodeURIComponent url) = ClientProxy.FetchResult.resp true b →
        ClientProxy.isValidContent b url = true →
        (∀ j : Nat, j < k → ClientProxy.accepted
            (net ((ClientProxy.corsProxies[j]?.getD []) ++ encodeURIComponent url)) url
          = false) →
        (ClientProxy.fetchWithProxy net url c now).1 = ⟨true, some b, none⟩) ∧
    (ClientProxy.FetchResult.isOk (net url) = false →
      (∀ p ∈ ClientProxy.corsProxies,
        ClientProxy.accepted (net (p ++ encodeURIComponent url)) url = false) →
      (ClientProxy.fetchWithProxy net url c now).1
        = ⟨false, none, some (toL "All proxy attempts failed")⟩) := by
  refine ⟨?_, ?_, ?_⟩
  · intro b hb
    rw [fetchWithProxy_miss net url c now hmiss, hb]
  · intro hnotok k p b hk hnet hvalid hbefore
    rw [fetchWithProxy_miss net url c now hmiss]
    cases hnet0 : net url with
    | resp ok body =>
      cases ok with
      | true => rw [hnet0] at hnotok; simp [ClientProxy.FetchResult.isOk] at hnotok
      | false =>
        rw [tryProxies_first net url now ClientProxy.corsProxies _ k p b hk hnet hvalid hbefore]
    | threw =>
      rw [tryProxies_first net url now ClientProxy.corsProxies _ k p b hk hnet hvalid hbefore]
  · intro hnotok hall
    rw [fetchWithProxy_miss net url c now hmiss]
    cases hnet0 : net url with
    | resp ok body =>
      cases ok with
      | true => rw [hnet0] at hnotok; simp [ClientProxy.FetchResult.isOk] at hnotok
      | false => rw [tryProxies_all_fail net url now ClientProxy.corsProxies _ hall]
    | threw => rw [tryProxies_all_fail net url now ClientProxy.corsProxies _ hall]

/-- Concrete instances of C4 (amended): a transport-successful direct
fetch is returned as-is; with the direct fetch throwing, the first relay
returning an HTML error page and the second a genuine playlist, the
second relay's content is returned; and with every strategy failing the
call reports the aggregate failure. -/
theorem C4_amended_witness :
    (ClientProxy.fetchWithProxy
        (fun _ => ClientProxy.FetchResult.resp true (toL "anything at all here"))
        (toL "http://up.example/ch.m3u8") (fun _ => none) 0).1
      = ⟨true, some (toL "anything at all here"), none⟩ ∧
    (ClientProxy.fetchWithProxy
        (fun s =>
          if s = toL "https://cors-anywhere.herokuapp.com/"
              ++ encodeURIComponent (toL "http://up.example/ch.m3u8")
            then ClientProxy.FetchResult.resp true (toL "#EXTM3U\n#EXTINF:10,\nseg0.ts")
          else if s = toL "https://corsproxy.io/?"
              ++ encodeURIComponent (toL "http://up.example/ch.m3u8")
            then ClientProxy.FetchResult.resp true (toL "<!DOCTYPE html> blocked")
          else ClientProxy.FetchResult.threw)
        (toL "http://up.example/ch.m3u8") (fun _ => none) 0).1
      = ⟨true, some (toL "#EXTM3U\n#EXTINF:10,\nseg0.ts"), none⟩ ∧
    (ClientProxy.fetchWithProxy
        (fun _ => ClientProxy.FetchResult.resp false (toL "bad gateway"))
        (toL "http://up.example/ch.m3u8") (fun _ => none) 0).1
      = ⟨false, none, some (toL "All proxy attempts failed")⟩ := by
  refine ⟨?_, ?_, ?_⟩
  · exact (C4_amended_fetch_strategy
      (fun _ => ClientProxy.FetchResult.resp true (toL "anything at all here"))
      (toL "http://up.example/ch.m3u8") (fun _ => none) 0 rfl).1
      (toL "anything at all here") rfl
  · exact (C4_amended_fetch_strategy
      (fun s =>
        if s = toL "https://cors-anywhere.herokuapp.com/"
            ++ encodeURIComponent (toL "http://up.example/ch.m3u8")
          then ClientProxy.FetchResult.resp true (toL "#EXTM3U\n#EXTINF:10,\nseg0.ts")
        else if s = toL "https://corsproxy.io/?"
            ++ encodeURIComponent (toL "http://up.example/ch.m3u8")
          then ClientProxy.FetchResult.resp true (toL "<!DOCTYPE html> blocked")
        else ClientProxy.FetchResult.threw)
      (toL "http://up.example/ch.m3u8") (fun _ => none) 0 rfl).2.1
      (by decide) 1 (toL "https://cors-anywhere.herokuapp.com/")
      (toL "#EXTM3U\n#EXTINF:10,\nseg0.ts") (by decide) (by decide) (by decide) (by decide)
  · exact (C4_amended_fetch_strategy
      (fun _ => ClientProxy.FetchResult.resp false (toL "bad gateway"))
      (toL "http://up.example/ch.m3u8") (fun _ => none) 0 rfl).2.2
      (by decide) (by decide)

/-- C9: when the URL is absent from the cache and the direct fetch and
every configured relay fail at transport level (non-success status or a
thrown error), the call returns the aggregate failure and the cache map
is returned exactly as it was — no entry is written. -/
theorem C9_failed_fetch_leaves_cache_unchanged (net : JSStr → ClientProxy.FetchResult)
    (url : JSStr) (c : ClientProxy.Cache) (now : Nat)
    (habsent : c url = none)
    (hdirect : ClientProxy.FetchResult.isOk (net url) = false)
    (hall : ∀ p ∈ ClientProxy.corsProxies,
      ClientProxy.FetchResult.isOk (net (p ++ encodeURIComponent url)) = false) :
    ClientProxy.fetchWithProxy net url c now
      = (⟨false, none, some (toL "All proxy attempts failed")⟩, c) := by
  have hgc := @getFromCache_miss_of_absent c url now habsent
  have hmiss : (ClientProxy.getFromCache c url now).1 = none := by rw [hgc]
  rw [fetchWithProxy_miss net url c now hmiss]
  have hall' : ∀ p ∈ ClientProxy.corsProxies,
      ClientProxy.accepted (net (p ++ encodeURIComponent url)) url = false :=
    fun p hp => accepted_false_of_not_ok (hall p hp)
  cases hnet0 : net url with
  | resp ok body =>
    cases ok with
    | true => rw [hnet0] at hdirect; simp [ClientProxy.FetchResult.isOk] at hdirect
    | false =>
      rw [tryProxies_all_fail net url now ClientProxy.corsProxies _ hall', hgc]
  | threw =>
    rw [tryProxies_all_fail net url now ClientProxy.corsProxies _ hall', hgc]

/-- Concrete instance of C9: every strategy returns a non-success
status; the result is the aggregate failure and the (empty) cache map is
returned untouched. -/
theorem C9_failed_fetch_witness :
    ClientProxy.fetchWithProxy
        (fun _ => ClientProxy.FetchResult.resp false (toL "bad gateway"))
        (toL "http://up.example/list.m3u8") (fun _ => none) 5
      = (⟨false, none, some (toL "All proxy attempts failed")⟩, fun _ => none) :=
  C9_failed_fetch_leaves_cache_unchanged
    (fun _ => ClientProxy.FetchResult.resp false (toL "bad gateway"))
    (toL "http://up.example/list.m3u8") (fun _ => none) 5 rfl rfl (by decide)

/-! ## C2: rewrite completeness -/

theorem processLines_length (baseUrl : JSStr) :
    ∀ (ls : List JSStr) (st : SW.RwState),
    (SW.processLines baseUrl st ls).1.length = ls.length := by
  intro ls
  induction ls with
  | nil => intro st; rfl
  | cons l rest ih =>
    intro st
    rw [processLines_cons]
    show (SW.processLines baseUrl (SW.processLine baseUrl st l).2 rest).1.length + 1 = _
    rw [ih]
    rfl

theorem processLine_counter_mono (baseUrl : JSStr) (st : SW.RwState) (raw : JSStr) :
    st.reg.mappingCounter ≤ (SW.processLine baseUrl st raw).2.reg.mappingCounter := by
  by_cases hb : jsTrim raw = []
  · rw [processLine_blank _ _ _ hb]
  · cases hsharp : jsStartsWith (jsTrim raw) (toL "#") with
    | false =>
      rw [processLine_uri _ _ _ hb hsharp]
      exact Nat.le_succ _
    | true =>
      cases hkey : jsStartsWith (jsTrim raw) (toL "#EXT-X-KEY") with
      | true =>
        cases hm : SW.findUriMatch (jsTrim raw) with
        | some x =>
          obtain ⟨pre, r5, cap, post⟩ := x
          rw [processLine_key_match _ _ _ hkey hm]
          exact Nat.le_succ _
        | none =>
          rw [processLine_key_nomatch _ _ _ hkey hm]
      | false =>
        cases hsi : jsStartsWith (jsTrim raw) (toL "#EXT-X-STREAM-INF") with
        | true => rw [processLine_streamInf _ _ _ hsi]
        | false =>
          cases hin : jsStartsWith (jsTrim raw) (toL "#EXTINF") with
          | true => rw [processLine_extinf _ _ _ hin]
          | false => rw [processLine_otherDirective _ _ _ hsharp hkey hsi hin]

theorem processLine_preserves (baseUrl : JSStr) (st : SW.RwState) (raw : JSStr)
    (c : Nat) (hc : c < st.reg.mappingCounter) :
    (SW.processLine baseUrl st raw).2.reg.urlMappings (natToString c)
      = st.reg.urlMappings (natToString c) := by
  have hkeyne : natToString c ≠ natToString st.reg.mappingCounter := by
    intro heq
    exact absurd (natToString_inj heq) (by omega)
  by_cases hb : jsTrim raw = []
  · rw [processLine_blank _ _ _ hb]
  · cases hsharp : jsStartsWith (jsTrim raw) (toL "#") with
    | false =>
      rw [processLine_uri _ _ _ hb hsharp]
      show (if natToString c = natToString st.reg.mappingCounter then _ else
        st.reg.urlMappings (natToString c)) = _
      rw [if_neg hkeyne]
    | true =>
      cases hkey : jsStartsWith (jsTrim raw) (toL "#EXT-X-KEY") with
      | true =>
        cases hm : SW.findUriMatch (jsTrim raw) with
        | some x =>
          obtain ⟨pre, r5, cap, post⟩ := x
          rw [processLine_key_match _ _ _ hkey hm]
          show (if natToString c = natToString st.reg.mappingCounter then _ else
            st.reg.urlMappings (natToString c)) = _
          rw [if_neg hkeyne]
        | none =>
          rw [processLine_key_nomatch _ _ _ hkey hm]
      | false =>
        cases hsi : jsStartsWith (jsTrim raw) (toL "#EXT-X-STREAM-INF") with
        | true => rw [processLine_streamInf _ _ _ hsi]
        | false =>
          cases hin : jsStartsWith (jsTrim raw) (toL "#EXTINF") with
          | true => rw [processLine_extinf _ _ _ hin]
          | false => rw [processLine_otherDirective _ _ _ hsharp hkey hsi hin]

theorem processLines_counter_mono (baseUrl : JSStr) :
    ∀ (ls : List JSStr) (st : SW.RwState),
    st.reg.mappingCounter ≤ (SW.processLines baseUrl st ls).2.reg.mappingCounter := by
  intro ls
  induction ls with
  | nil => intro st; exact Nat.le_refl _
  | cons l rest ih =>
    intro st
    rw [processLines_cons]
    exact le_trans (processLine_counter_mono baseUrl st l) (ih (SW.processLine baseUrl st l).2)

theorem processLines_preserves (baseUrl : JSStr) :
    ∀ (ls : List JSStr) (st : SW.RwState) (c : Nat), c < st.reg.mappingCounter →
    (SW.processLines baseUrl st ls).2.reg.urlMappings (natToString c)
      = st.reg.urlMappings (natToString c) := by
  intro ls
  induction ls with
  | nil => intro st c hc; rfl
  | cons l rest ih =>
    intro st c hc
    rw [processLines_cons]
    rw [ih (SW.processLine baseUrl st l).2 c
      (lt_of_lt_of_le hc (processLine_counter_mono baseUrl st l))]
    exact processLine_preserves baseUrl st l c hc

/-- Each non-blank, non-`#` input line is rewritten, at its own position,
into a `/manifest/` or `/segment/` reference whose id resolves through
the final registry to the code's base-resolution of that line. -/
theorem processLines_uri_line (baseUrl : JSStr) :
    ∀ (ls : List JSStr) (st : SW.RwState) (i : Nat) (hi : i < ls.length),
    jsTrim (ls.get ⟨i, hi⟩) ≠ [] →
    jsStartsWith (jsTrim (ls.get ⟨i, hi⟩)) (toL "#") = false →
    ∃ id,
      ((SW.processLines baseUrl st ls).1.getD i []
          = SW.PROXY_BASE ++ toL "/manifest/" ++ id ∨
        (SW.processLines baseUrl st ls).1.getD i []
          = SW.PROXY_BASE ++ toL "/segment/" ++ id) ∧
      (SW.processLines baseUrl st ls).2.reg.urlMappings id
        = some (SW.resolveUrl baseUrl (jsTrim (ls.get ⟨i, hi⟩))) := by
  intro ls
  induction ls with
  | nil => intro st i hi; simp at hi
  | cons l rest ih =>
    intro st i hi hne hns
    cases i with
    | zero =>
      refine ⟨natToString st.reg.mappingCounter, ?_, ?_⟩
      · rw [processLines_cons]
        show (SW.processLine baseUrl st l).1 = _ ∨ (SW.processLine baseUrl st l).1 = _
        rw [processLine_uri baseUrl st l hne hns]
        by_cases ht : st.lastTag = toL "STREAM-INF"
        · left
          show (if st.lastTag = toL "STREAM-INF" then _ else _) = _
          rw [if_pos ht]
        · right
          show (if st.lastTag = toL "STREAM-INF" then _ else _) = _
          rw [if_neg ht]
      · rw [processLines_cons]
        show (SW.processLines baseUrl (SW.processLine baseUrl st l).2
          rest).2.reg.urlMappings _ = _
        have hlt : st.reg.mappingCounter
            < (SW.processLine baseUrl st l).2.reg.mappingCounter := by
          rw [processLine_uri baseUrl st l hne hns]
          show st.reg.mappingCounter < st.reg.mappingCounter + 1
          omega
        rw [processLines_preserves baseUrl rest _ st.reg.mappingCounter hlt]
        rw [processLine_uri baseUrl st l hne hns]
        show (if natToString st.reg.mappingCounter = natToString st.reg.mappingCounter
          then some (SW.resolveUrl baseUrl (jsTrim l)) else _) = _
        rw [if_pos rfl]
        rfl
    | succ i' =>
      have hi' : i' < rest.length := by simpa using hi
      rw [processLines_cons]
      show ∃ id,
        ((SW.processLines baseUrl (SW.processLine baseUrl st l).2 rest).1.getD i' []
            = SW.PROXY_BASE ++ toL "/manifest/" ++ id ∨
          (SW.processLines baseUrl (SW.processLine baseUrl st l).2 rest).1.getD i' []
            = SW.PROXY_BASE ++ toL "/segment/" ++ id) ∧
        (SW.processLines baseUrl (SW.processLine baseUrl st l).2 rest).2.reg.urlMappings id
          = some (SW.resolveUrl baseUrl (jsTrim (rest.get ⟨i', hi'⟩)))
      exact ih (SW.processLine baseUrl st l).2 i' hi' hne hns

/-- Positions shift by exactly the number of inserted header lines (zero
or one): reading the fixed-up output at the shifted index recovers the
processed line. -/
theorem ensureHeader_getD (out : List JSStr) (i : Nat) :
    (SW.ensureHeader out).getD (i + ((SW.ensureHeader out).length - out.length)) []
      = out.getD i [] := by
  unfold SW.ensureHeader
  cases out with
  | nil => simp
  | cons h t =>
    by_cases hh : jsStartsWith h (toL "#EXTM3U") = true
    · simp [hh]
    · simp only [hh, Bool.false_eq_true, if_false]
      have hlen : (toL "#EXTM3U" :: h :: t).length - (h :: t).length = 1 := by
        simp
      rw [hlen]
      rfl

/-- C2: for every line of the input manifest that is non-blank and does
not start with `#` (after trimming), the rewritten line list contains, at
the corresponding position (shifted by the header insertion when one
occurs), a `{proxyBase}/manifest/{id}` or `{proxyBase}/segment/{id}`
reference such that looking up `{id}` in the final registry yields the
original URI of that line resolved against the manifest's base URL when
relative (absolute `http(s)` URIs pass through unchanged); directive and
blank lines are never turned into references by this path. -/
theorem C2_rewrite_completeness (content originalUrl : JSStr) (reg : SW.RegState)
    (i : Nat) (hi : i < (splitOnNl content).length)
    (hne : jsTrim ((splitOnNl content).get ⟨i, hi⟩) ≠ [])
    (hns : jsStartsWith (jsTrim ((splitOnNl content).get ⟨i, hi⟩)) (toL "#") = false) :
    ∃ id,
      ((SW.ensureHeader (SW.processM3U8Lines content originalUrl reg).1).getD
          (i + ((SW.ensureHeader (SW.processM3U8Lines content originalUrl reg).1).length
            - (SW.processM3U8Lines content originalUrl reg).1.length)) []
          = SW.PROXY_BASE ++ toL "/manifest/" ++ id ∨
        (SW.ensureHeader (SW.processM3U8Lines content originalUrl reg).1).getD
          (i + ((SW.ensureHeader (SW.processM3U8Lines content originalUrl reg).1).length
            - (SW.processM3U8Lines content originalUrl reg).1.length)) []
          = SW.PROXY_BASE ++ toL "/segment/" ++ id) ∧
      (SW.processM3U8Lines content originalUrl reg).2.reg.urlMappings id
        = some (SW.resolveUrl (SW.getBaseUrl originalUrl)
            (jsTrim ((splitOnNl content).get ⟨i, hi⟩))) := by
  have hlen : (SW.processM3U8Lines content originalUrl reg).1.length
      = (splitOnNl content).length :=
    processLines_length (SW.getBaseUrl originalUrl) (splitOnNl content) ⟨reg, []⟩
  obtain ⟨id, hout, hmap⟩ := processLines_uri_line (SW.getBaseUrl originalUrl)
    (splitOnNl content) ⟨reg, []⟩ i hi hne hns
  refine ⟨id, ?_, hmap⟩
  rw [ensureHeader_getD]
  exact hout

/-- Concrete instance of C2: in a two-line playlist whose second line is
the relative URI `seg1.ts`, the output carries a proxied reference at the
matching position and the registry resolves its id to the base-resolved
segment URL. -/
theorem C2_rewrite_witness :
    ∃ id,
      ((SW.ensureHeader (SW.processM3U8Lines (toL "#EXTM3U\nseg1.ts")
          (toL "https://h.example/live/x.m3u8") ⟨1000, fun _ => none⟩).1).getD
          (1 + ((SW.ensureHeader (SW.processM3U8Lines (toL "#EXTM3U\nseg1.ts")
            (toL "https://h.example/live/x.m3u8") ⟨1000, fun _ => none⟩).1).length
            - (SW.processM3U8Lines (toL "#EXTM3U\nseg1.ts")
              (toL "https://h.example/live/x.m3u8") ⟨1000, fun _ => none⟩).1.length)) []
          = SW.PROXY_BASE ++ toL "/manifest/" ++ id ∨
        (SW.ensureHeader (SW.processM3U8Lines (toL "#EXTM3U\nseg1.ts")
          (toL "https://h.example/live/x.m3u8") ⟨1000, fun _ => none⟩).1).getD
          (1 + ((SW.ensureHeader (SW.processM3U8Lines (toL "#EXTM3U\nseg1.ts")
            (toL "https://h.example/live/x.m3u8") ⟨1000, fun _ => none⟩).1).length
            - (SW.processM3U8Lines (toL "#EXTM3U\nseg1.ts")
              (toL "https://h.example/live/x.m3u8") ⟨1000, fun _ => none⟩).1.length)) []
          = SW.PROXY_BASE ++ toL "/segment/" ++ id) ∧
      (SW.processM3U8Lines (toL "#EXTM3U\nseg1.ts")
        (toL "https://h.example/live/x.m3u8") ⟨1000, fun _ => none⟩).2.reg.urlMappings id
        = some (SW.resolveUrl (SW.getBaseUrl (toL "https://h.example/live/x.m3u8"))
            (jsTrim ((splitOnNl (toL "#EXTM3U\nseg1.ts")).get ⟨1, by decide⟩))) :=
  C2_rewrite_completeness (toL "#EXTM3U\nseg1.ts") (toL "https://h.example/live/x.m3u8")
    ⟨1000, fun _ => none⟩ 1 (by decide) (by decide) (by decide)
